import Mathlib

/-!
The plugin traefik-allow-countries: a shallow embedding of `traefik_allow_countries.go`.

The plugin is a Traefik middleware that lets a request through when every
candidate client address of the request lies in a configured country's CIDR
blocks (or is a private address and local requests are allowed).

Layout of this file:

* the parts of Go's standard library the plugin calls (`net`, `strings`,
  `bufio`, `time`), modelled on bytes and characters;
* the plugin's own functions, one Lean definition per Go function, with the
  same names;
* lemmas and the theorems about the plugin.

Conventions.  A Go string is a Lean `String` (parsers look at its characters;
every character the parsers accept is ASCII, so reading characters instead of
bytes accepts the same texts).  A byte is a `Nat` below 256.  A Go function
that can panic returns a `Run`, whose `panic` constructor carries the panic
value.  File system, clock and the opened-files trace are threaded through a
`World`.
-/

namespace AllowCountries

/-! ## Go standard library: `net` (addresses, networks, parsing) -/

/-- Go `net.IP`: a byte slice, 4 bytes (IPv4) or 16 bytes (IPv6) when well formed. -/
abbrev IP := List Nat

/-- Go `net.IPMask`: a byte slice. -/
abbrev IPMask := List Nat

/-- Go `net.IPNet`: a network number and its mask. -/
structure IPNet where
  IP : AllowCountries.IP
  Mask : IPMask
deriving DecidableEq, Repr

/-- Go `net.IPv4len`. -/
def IPv4len : Nat := 4

/-- Go `net.IPv6len`. -/
def IPv6len : Nat := 16

/-- Go `net.v4InV6Prefix`: the twelve bytes in front of an IPv4-mapped address. -/
def v4InV6Lead : List Nat := [0, 0, 0, 0, 0, 0, 0, 0, 0, 0, 0xff, 0xff]

/-- Go `net.IPv6loopback`, the address `::1`. -/
def IPv6loopback : IP := [0, 0, 0, 0, 0, 0, 0, 0, 0, 0, 0, 0, 0, 0, 0, 1]

/-- Go `net.isZeros`. -/
def isZeros (p : List Nat) : Bool := p.all (fun b => b == 0)

/-- Go `IP.To4`: the 4-byte form of an IPv4 address, `none` (Go `nil`) otherwise. -/
def To4 (ip : IP) : Option IP :=
  if ip.length == IPv4len then some ip
  else if ip.length == IPv6len && isZeros (ip.take 10) && ip.get? 10 == some 0xff
      && ip.get? 11 == some 0xff then some (ip.drop 12)
  else none

/-- Go `IP.Equal`: equality up to the IPv4 / IPv4-mapped representation. -/
def IPEqual (ip x : IP) : Bool :=
  if ip.length == x.length then ip == x
  else if ip.length == IPv4len && x.length == IPv6len then
    x.take 12 == v4InV6Lead && ip == x.drop 12
  else if ip.length == IPv6len && x.length == IPv4len then
    ip.take 12 == v4InV6Lead && ip.drop 12 == x
  else false

/-- Go `IP.IsLoopback`. -/
def IsLoopback (ip : IP) : Bool :=
  match To4 ip with
  | some ip4 => ip4.get? 0 == some 127
  | none => IPEqual ip IPv6loopback

/-- Go `IP.IsLinkLocalUnicast`. -/
def IsLinkLocalUnicast (ip : IP) : Bool :=
  match To4 ip with
  | some ip4 => ip4.get? 0 == some 169 && ip4.get? 1 == some 254
  | none => ip.length == IPv6len && ip.get? 0 == some 0xfe
      && (ip.get? 1).map (fun b => b &&& 0xc0) == some 0x80

/-- Go `IP.IsLinkLocalMulticast`. -/
def IsLinkLocalMulticast (ip : IP) : Bool :=
  match To4 ip with
  | some ip4 => ip4.get? 0 == some 224 && ip4.get? 1 == some 0 && ip4.get? 2 == some 0
  | none => ip.length == IPv6len && ip.get? 0 == some 0xff
      && (ip.get? 1).map (fun b => b &&& 0x0f) == some 0x02

/-- Go `net.networkNumberAndMask`: the network number and mask in matching
lengths, `none` when the `IPNet` is malformed. -/
def networkNumberAndMask (n : IPNet) : Option (IP × IPMask) :=
  let ip? : Option IP :=
    match To4 n.IP with
    | some ip4 => some ip4
    | none => if n.IP.length != IPv6len then none else some n.IP
  match ip? with
  | none => none
  | some ip =>
    if n.Mask.length == IPv4len then
      if ip.length != IPv4len then none else some (ip, n.Mask)
    else if n.Mask.length == IPv6len then
      if ip.length == IPv4len then some (ip, n.Mask.drop 12) else some (ip, n.Mask)
    else none

/-- The byte-by-byte loop of `IPNet.Contains`: every masked byte agrees. -/
def maskedEq : List Nat → List Nat → List Nat → Bool
  | [], _, _ => true
  | x :: xs, n :: ns, m :: ms => if n &&& m != x &&& m then false else maskedEq xs ns ms
  | _ :: _, _, _ => false  -- not reached: `Contains` passes three slices of one length

/-- Go `IPNet.Contains`. -/
def Contains (n : IPNet) (ip : IP) : Bool :=
  match networkNumberAndMask n with
  | none =>
    -- nn is nil: only an address of length zero has the same length
    let ip1 := (To4 ip).getD ip
    ip1.length == 0
  | some (nn, m) =>
    let ip1 := (To4 ip).getD ip
    if ip1.length != nn.length then false else maskedEq ip1 nn m

/-- Decimal digit test `'0' <= c && c <= '9'`. -/
def isDigit (c : Char) : Bool := 48 ≤ c.toNat && c.toNat ≤ 57

/-- Go `netip.parseIPv4Fields` as a left-to-right scan.  Arguments after the
text: the octets stored so far (`pos` is their number), `val`, `digLen`,
whether the scan is at index 0, and whether the previous byte was a dot. -/
def parseIPv4Fields : List Char → List Nat → Nat → Nat → Bool → Bool → Option (List Nat)
  | [], fields, val, _, _, _ =>
    if fields.length < 3 then none else some (fields ++ [val])
  | c :: rest, fields, val, digLen, first, prevDot =>
    if isDigit c then
      if digLen == 1 && val == 0 then none
      else
        let val1 := val * 10 + (c.toNat - 48)
        if val1 > 255 then none
        else parseIPv4Fields rest fields val1 (digLen + 1) false false
    else if c == '.' then
      if first || rest.isEmpty || prevDot then none
      else if fields.length == 3 then none
      else parseIPv4Fields rest (fields ++ [val]) 0 0 false true
    else none

/-- Go `netip.parseIPv4`. -/
def parseIPv4 (s : List Char) : Option (List Nat) :=
  parseIPv4Fields s [] 0 0 true false

/-- Value of a hexadecimal digit, `none` for any other character. -/
def hexVal (c : Char) : Option Nat :=
  if 48 ≤ c.toNat && c.toNat ≤ 57 then some (c.toNat - 48)
  else if 97 ≤ c.toNat && c.toNat ≤ 102 then some (c.toNat - 97 + 10)
  else if 65 ≤ c.toNat && c.toNat ≤ 70 then some (c.toNat - 65 + 10)
  else none

/-- The hex-number loop of `netip.parseIPv6`: reads hex digits from the front
of the text; gives the accumulated value, the number of digits read and the
rest of the text, or `none` for more than four digits or a value above 65535. -/
def parseHexGroup : List Char → Nat → Nat → Option (Nat × Nat × List Char)
  | [], off, acc => some (acc, off, [])
  | c :: cs, off, acc =>
    match hexVal c with
    | none => some (acc, off, c :: cs)
    | some d =>
      let acc1 := (acc * 16 + d) % 2 ^ 32
      if off > 3 then none
      else if acc1 > 0xffff then none
      else parseHexGroup cs (off + 1) acc1

/-- The main loop of `netip.parseIPv6` (`for i < 16`).  The bytes stored so
far are `ip` (`i` is their number), `ell` is the position of the ellipsis.
Every turn that continues stores two bytes, so eight turns reach `i = 16`; the
first argument counts the turns left.  Gives the unread text, the bytes and
the ellipsis, or `none` on a parse error. -/
def parseIPv6Loop : Nat → List Char → List Nat → Option Nat →
    Option (List Char × List Nat × Option Nat)
  | 0, s, ip, ell => some (s, ip, ell)
  | turns + 1, s, ip, ell =>
    match parseHexGroup s 0 0 with
    | none => none
    | some (acc, off, rest) =>
      if off == 0 then none
      else if rest.head? == some '.' then
        if ell.isNone && ip.length != 12 then none
        else if ip.length + 4 > 16 then none
        else
          match parseIPv4Fields s [] 0 0 true false with
          | none => none
          | some f => some ([], ip ++ f, ell)
      else
        let ip1 := ip ++ [acc / 256, acc % 256]
        match rest with
        | [] => some ([], ip1, ell)
        | c :: rest1 =>
          if c != ':' then none
          else
            match rest1 with
            | [] => none
            | c1 :: rest2 =>
              if c1 == ':' then
                if ell.isSome then none
                else
                  match rest2 with
                  | [] => some ([], ip1, some ip1.length)
                  | _ :: _ => parseIPv6Loop turns rest2 ip1 (some ip1.length)
              else parseIPv6Loop turns rest1 ip1 ell

/-- Go `netip.parseIPv6`: the 16 bytes and the zone. -/
def parseIPv6 (text : List Char) : Option (List Nat × List Char) :=
  let s0 := text.takeWhile (fun c => c != '%')
  let after := text.dropWhile (fun c => c != '%')
  let zone := after.drop 1
  if !after.isEmpty && zone.isEmpty then none
  else
    let lead := s0.take 2 == [':', ':']
    let s1 := if lead then s0.drop 2 else s0
    if lead && s1.isEmpty then some (List.replicate 16 0, zone)
    else
      match parseIPv6Loop 8 s1 [] (if lead then some 0 else none) with
      | none => none
      | some (s, ip, ell) =>
        if !s.isEmpty then none
        else if ip.length < 16 then
          match ell with
          | none => none
          | some e => some (ip.take e ++ List.replicate (16 - ip.length) 0 ++ ip.drop e, zone)
        else if ell.isSome then none
        else some (ip, zone)

/-- Go `netip.Addr`, as far as the plugin sees it: an IPv4 address (4 bytes)
or an IPv6 address (16 bytes) with its zone. -/
inductive Addr where
  | v4 (b : List Nat)
  | v6 (b : List Nat) (zone : List Char)
deriving DecidableEq, Repr

/-- The first of the bytes `.`, `:` and `%` in the text (the scan of
`netip.ParseAddr`). -/
def firstSep : List Char → Option Char
  | [] => none
  | c :: cs => if c == '.' || c == ':' || c == '%' then some c else firstSep cs

/-- Go `netip.ParseAddr`. -/
def ParseAddr (s : List Char) : Option Addr :=
  match firstSep s with
  | none => none
  | some c =>
    if c == '.' then (parseIPv4 s).map Addr.v4
    else if c == ':' then (parseIPv6 s).map (fun r => Addr.v6 r.1 r.2)
    else none

/-- Go `Addr.Zone`. -/
def Addr.Zone : Addr → List Char
  | .v4 _ => []
  | .v6 _ z => z

/-- Go `Addr.BitLen`. -/
def Addr.BitLen : Addr → Nat
  | .v4 _ => 32
  | .v6 _ _ => 128

/-- Go `Addr.As16`: IPv4 addresses come out IPv4-mapped. -/
def Addr.As16 : Addr → List Nat
  | .v4 b => v4InV6Lead ++ b
  | .v6 b _ => b

/-- Go `net.ParseIP`: the 16-byte form of the address, `none` (Go `nil`) when
the text is not an address or has a zone. -/
def netParseIP (s : String) : Option IP :=
  match ParseAddr s.data with
  | none => none
  | some a => if !a.Zone.isEmpty then none else some a.As16

/-- Go `net.big`, the overflow bound of `dtoi`. -/
def big : Nat := 0xFFFFFF

/-- The loop of Go `net.dtoi`: value, digits read, and the `ok` flag. -/
def dtoiLoop : List Char → Nat → Nat → Nat × Nat × Bool
  | [], n, i => (n, i, true)
  | c :: cs, n, i =>
    if isDigit c then
      let n1 := n * 10 + (c.toNat - 48)
      if n1 ≥ big then (big, i, false) else dtoiLoop cs n1 (i + 1)
    else (n, i, true)

/-- Go `net.dtoi`: decimal to integer. -/
def dtoi (s : List Char) : Nat × Nat × Bool :=
  match dtoiLoop s 0 0 with
  | (n, i, ok) => if ok && i == 0 then (0, 0, false) else (n, i, ok)

/-- Go `net.CIDRMask` on `len` bytes: `ones` leading one bits. -/
def maskBytes : Nat → Nat → List Nat
  | 0, _ => []
  | len + 1, n =>
    if n ≥ 8 then 0xff :: maskBytes len (n - 8)
    else (0xff - (0xff >>> n)) :: maskBytes len 0

/-- Go `net.CIDRMask`. -/
def CIDRMask (ones bits : Nat) : IPMask := maskBytes (bits / 8) ones

/-- Go `net.allFF`. -/
def allFF (b : List Nat) : Bool := b.all (fun c => c == 0xff)

/-- Go `IP.Mask`: `none` is Go `nil`. -/
def IPMaskApply (ip : IP) (mask : IPMask) : Option IP :=
  let mask1 := if mask.length == IPv6len && ip.length == IPv4len && allFF (mask.take 12)
    then mask.drop 12 else mask
  let ip1 := if mask1.length == IPv4len && ip.length == IPv6len && ip.take 12 == v4InV6Lead
    then ip.drop 12 else ip
  if ip1.length != mask1.length then none
  else some (List.zipWith (fun a b => a &&& b) ip1 mask1)

/-- Go `net.ParseCIDR`, its `*IPNet` result: `none` stands for the error return. -/
def ParseCIDR (s : String) : Option IPNet :=
  let cs := s.data
  if !cs.contains '/' then none
  else
    let addr := cs.takeWhile (fun c => c != '/')
    let mask := (cs.dropWhile (fun c => c != '/')).drop 1
    match ParseAddr addr with
    | none => none
    | some ipAddr =>
      if !ipAddr.Zone.isEmpty then none
      else
        match dtoi mask with
        | (n, i, ok) =>
          if !ok || i != mask.length || n > ipAddr.BitLen then none
          else
            let m := CIDRMask n ipAddr.BitLen
            some { IP := (IPMaskApply ipAddr.As16 m).getD [], Mask := m }

/-! ## Go standard library: `strings`, `bufio`, `net/http`, `time` -/

/-- The scan of Go `strings.FieldsFunc`: `cur` holds the field being read, reversed. -/
def FieldsFuncLoop (f : Char → Bool) : List Char → List Char → List String
  | [], cur => if cur.isEmpty then [] else [String.mk cur.reverse]
  | c :: cs, cur =>
    if f c then
      if cur.isEmpty then FieldsFuncLoop f cs []
      else String.mk cur.reverse :: FieldsFuncLoop f cs []
    else FieldsFuncLoop f cs (c :: cur)

/-- Go `strings.FieldsFunc`: the maximal runs of characters that do not satisfy `f`. -/
def FieldsFunc (s : String) (f : Char → Bool) : List String := FieldsFuncLoop f s.data []

/-- Go `strings.ToLower`.  ASCII letters are lowered by adding 32; `lower` is
Go `unicode.ToLower` on the characters above ASCII (the Unicode case tables). -/
def ToLower (lower : Char → Char) (s : String) : String :=
  String.mk (s.data.map (fun c =>
    if c.toNat ≤ 127 then
      if 65 ≤ c.toNat && c.toNat ≤ 90 then Char.ofNat (c.toNat + 32) else c
    else lower c))

/-- Go `bufio.dropCR`: drops one trailing carriage return. -/
def dropCR (l : List Char) : List Char :=
  if l.getLast? == some (Char.ofNat 13) then l.dropLast else l

/-- The tokens Go `bufio.ScanLines` cuts out of a text: `cur` holds the line
being read, reversed.  A blank line gives the empty token. -/
def ScanLinesLoop : List Char → List Char → List String
  | [], cur => if cur.isEmpty then [] else [String.mk (dropCR cur.reverse)]
  | c :: cs, cur =>
    if c == Char.ofNat 10 then String.mk (dropCR cur.reverse) :: ScanLinesLoop cs []
    else ScanLinesLoop cs (c :: cur)

/-- The lines a Go `bufio.Scanner` with the default split function yields for a text. -/
def ScanLines (content : String) : List String := ScanLinesLoop content.data []

/-- A file as the plugin can observe it: the text the scanner delivers, and
whether the scanner ends with an error (a failed read, a line too long). -/
structure FileData where
  content : String
  scanErr : Bool

/-- The environment of a run: the file system (`none`: `os.Open` fails), the
clock (`clock n` is the instant, in nanoseconds, the n-th reading of
`time.Now` returns), `unicode.ToLower` above ASCII, the number of clock
readings made so far and the paths passed to `os.Open` so far. -/
structure World where
  files : String → Option FileData
  clock : Nat → Int
  lower : Char → Char
  tick : Nat
  opened : List String

/-- Go `error` values of the plugin: an error of the operating system or the
scanner on a file, or `fmt.Errorf` with the formatted text. -/
inductive GoError where
  | os (file : String)
  | errorf (msg : String)
deriving DecidableEq, Repr

/-- The values the plugin panics with: `failed to read file for version .. and
country ..` and `parse error on ..`. -/
inductive PanicValue where
  | readFailed (ipType country : String) (err : GoError)
  | parseError (value : String)
deriving DecidableEq, Repr

/-- Outcome of a Go call that may panic. -/
inductive Run (α : Type) where
  | ok (a : α)
  | panic (p : PanicValue)
deriving DecidableEq, Repr

/-- Go `time.Hour`, in nanoseconds. -/
def Hour : Int := 3600000000000

/-- Largest Go `time.Duration` (a signed 64-bit count of nanoseconds). -/
def maxDuration : Int := 2 ^ 63 - 1

/-- Smallest Go `time.Duration`. -/
def minDuration : Int := -(2 ^ 63)

/-- Go `time.Now`: reads the clock. -/
def timeNow (w : World) : Int × World :=
  (w.clock w.tick, { w with tick := w.tick + 1 })

/-- Go `Time.Sub`: the difference `t - u` as a `Duration`, saturating at the
largest and smallest duration. -/
def TimeSub (t u : Int) : Int :=
  if t - u > maxDuration then maxDuration
  else if t - u < minDuration then minDuration
  else t - u

/-- Go `time.Since(t)`, which is `time.Now().Sub(t)`. -/
def timeSince (w : World) (t : Int) : Int × World :=
  match timeNow w with
  | (now, w1) => (TimeSub now t, w1)

/-- Go `d.Hours() >= h` for a duration `d` and an integer constant `h`.
`Hours` is `float64(d / Hour) + float64(d % Hour) / 3.6e12`.  The test is
stated on integers: `h * Hour <= d`.  For the one constant the plugin uses,
`h = 3600000`, the two agree on every duration: `d / Hour` is at most 2562047
and the fraction at most 1, so the float is at most 2562048 and the test is
false, as is `3600000 * Hour <= d` for `d <= 2^63 - 1`. -/
def hoursAtLeast (d : Int) (h : Nat) : Bool := decide ((h : Int) * Hour ≤ d)

/-- Go `http.Request`, the parts the plugin reads: the headers and the URL.
`Header key` is the list of values `Header.Get` finds for `key`, that is the
values stored under the canonical form of `key` in Go's header map. -/
structure Request where
  Header : String → List String
  URL : String

/-- Go `Header.Get`: the first value of the key, the empty string when there is none. -/
def HeaderGet (h : String → List String) (key : String) : String :=
  (h key).head?.getD ""

/-- Go `http.StatusForbidden`. -/
def StatusForbidden : Nat := 403

/-! ## The plugin: constants and types -/

/-- Source constant `HoursInMillis = 60 * 60 * 1000`. -/
def HoursInMillis : Nat := 60 * 60 * 1000

/-- Source constant `PrivateIpAddressesTag`. -/
def PrivateIpAddressesTag : String := "private"

/-- Source type `Config`. -/
structure Config where
  AllowLocalRequests : Bool
  CidrFileFolder : String
  CidrFileUpdate : Bool
  Countries : List String
  LogAllowedRequests : Bool
  LogDetails : Bool
  LogLocalRequests : Bool

/-- Source type `IpRangesTimestamp`. -/
structure IpRangesTimestamp where
  Country : String
  IpRanges : List IPNet
  Timestamp : Int
deriving DecidableEq, Repr

/-- Source type `traefik_allow_countries`, without the `next` handler: a call
of `next.ServeHTTP` is recorded as `Call.next`. -/
structure traefik_allow_countries where
  name : String
  allowedIPRanges : List IpRangesTimestamp
  allowLocalRequests : Bool
  cidrFileFolder : String
  cidrFileUpdate : Bool
  countries : List String
  logAllowedRequests : Bool
  logDetails : Bool
  logLocalRequests : Bool
deriving DecidableEq, Repr

/-- What `ServeHTTP` does to the outside: it calls the next handler or writes
a status on the response writer. -/
inductive Call where
  | next
  | writeHeader (status : Nat)
deriving DecidableEq, Repr

/-- The lines `ServeHTTP` hands to the `log` package. -/
inductive LogLine where
  | error (err : GoError)
  | localAllowed (ip : IP) (url : String)
  | localDenied (ip : IP) (url : String)
  | allowed (name url : String) (ip : IP)
  | denied (name url : String) (ip : IP)
deriving DecidableEq, Repr

/-- Result of `New`: the handler, the returned error, or a panic. -/
inductive NewResult where
  | handler (h : traefik_allow_countries)
  | error (err : GoError)
  | panic (p : PanicValue)
deriving DecidableEq, Repr

/-- Result of one `ServeHTTP` call: the calls made, the lines logged, the
registry as the call leaves it, the panic that ended the call (if any) and
the world. -/
structure Served where
  calls : List Call
  logs : List LogLine
  allowedIPRanges : List IpRangesTimestamp
  panicked : Option PanicValue
  world : World

/-! ## The plugin: private methods -/

/-- Source function `ReadFile`: the lines read and the error (`none` is `nil`). -/
def ReadFile (w : World) (file : String) : (List String × Option GoError) × World :=
  let w1 := { w with opened := w.opened ++ [file] }
  match w.files file with
  | none => (([], some (GoError.os file)), w1)
  | some fd =>
    if fd.scanErr then ((ScanLines fd.content, some (GoError.os file)), w1)
    else ((ScanLines fd.content, none), w1)

/-- Source function `ParseIP`: the address, or the text of the `fmt.Errorf` error. -/
def ParseIP (address : String) : Except String IP :=
  match netParseIP address with
  | none => Except.error ("unable to parse IP from address [" ++ address ++ "]")
  | some ipAddress => Except.ok ipAddress

/-- Source function `IsIpInList`. -/
def IsIpInList (ip : IP) : List IPNet → Bool
  | [] => false
  | block :: list => if Contains block ip then true else IsIpInList ip list

/-- Source function `IsPrivateIP`. -/
def IsPrivateIP (ip : IP) (privateIPBlocks : List IPNet) : Bool :=
  if IsLoopback ip || IsLinkLocalUnicast ip || IsLinkLocalMulticast ip then true
  else IsIpInList ip privateIPBlocks

/-- The loop of `InitializePrivateIPBlocks` and the inner loop of
`CreateCountryIPBlocks`: parse each text as a CIDR block and append it, panic
on the first one that does not parse. -/
def parseBlocks : List String → List IPNet → Run (List IPNet)
  | [], blocks => Run.ok blocks
  | value :: rest, blocks =>
    match ParseCIDR value with
    | none => Run.panic (PanicValue.parseError value)
    | some block => parseBlocks rest (blocks ++ [block])

/-- The CIDR literals of `InitializePrivateIPBlocks`. -/
def privateCIDRs : List String :=
  ["127.0.0.0/8", "10.0.0.0/8", "172.16.0.0/12", "192.168.0.0/16", "169.254.0.0/16",
   "::1/128", "fe80::/10", "fc00::/7"]

/-- Source function `InitializePrivateIPBlocks`. -/
def InitializePrivateIPBlocks : Run (List IPNet) := parseBlocks privateCIDRs []

/-- The outer loop of `CreateCountryIPBlocks` over the address families. -/
def readFamilies (country cidrFileFolder : String) :
    List String → World → List IPNet → Run (List IPNet) × World
  | [], w, blocks => (Run.ok blocks, w)
  | ipType :: rest, w, blocks =>
    match ReadFile w
      (cidrFileFolder ++ "/" ++ ipType ++ "/" ++ ToLower w.lower country ++ ".cidr") with
    | ((_, some err), w1) => (Run.panic (PanicValue.readFailed ipType country err), w1)
    | ((lines, none), w1) =>
      match parseBlocks lines blocks with
      | Run.panic p => (Run.panic p, w1)
      | Run.ok blocks1 => readFamilies country cidrFileFolder rest w1 blocks1

/-- Source function `CreateCountryIPBlocks`. -/
def CreateCountryIPBlocks (w : World) (country cidrFileFolder : String) :
    Run IpRangesTimestamp × World :=
  match readFamilies country cidrFileFolder ["ipv4", "ipv6"] w [] with
  | (Run.panic p, w1) => (Run.panic p, w1)
  | (Run.ok countryIPBlocks, w1) =>
    match timeNow w1 with
    | (now, w2) =>
      (Run.ok { Country := country, IpRanges := countryIPBlocks, Timestamp := now }, w2)

/-- The loop of `InitializeAllowedIPRanges` over the countries. -/
def appendCountries (cidrFileFolder : String) :
    List String → World → List IpRangesTimestamp → Run (List IpRangesTimestamp) × World
  | [], w, allowedIPBlocks => (Run.ok allowedIPBlocks, w)
  | country :: rest, w, allowedIPBlocks =>
    match CreateCountryIPBlocks w country cidrFileFolder with
    | (Run.panic p, w1) => (Run.panic p, w1)
    | (Run.ok entry, w1) => appendCountries cidrFileFolder rest w1 (allowedIPBlocks ++ [entry])

/-- Source function `InitializeAllowedIPRanges`. -/
def InitializeAllowedIPRanges (w : World) (countries : List String) (cidrFileFolder : String) :
    Run (List IpRangesTimestamp) × World :=
  match InitializePrivateIPBlocks with
  | Run.panic p => (Run.panic p, w)
  | Run.ok privateIPBlocks =>
    match timeNow w with
    | (now, w1) =>
      appendCountries cidrFileFolder countries w1
        [{ Country := PrivateIpAddressesTag, IpRanges := privateIPBlocks, Timestamp := now }]

/-- The helper `splitFn` of `CollectRemoteIP`. -/
def splitFn (c : Char) : Bool := c == ','

/-- The two loops of `CollectRemoteIP`: parse each value and append it to
`ipList`; on the first failure return the list so far and the error. -/
def parseValues : List String → List IP → List IP × Option GoError
  | [], ipList => (ipList, none)
  | value :: rest, ipList =>
    match ParseIP value with
    | Except.error msg => (ipList, some (GoError.errorf ("parsing failed: " ++ msg)))
    | Except.ok ipAddress => parseValues rest (ipList ++ [ipAddress])

/-- Source method `CollectRemoteIP`. -/
def CollectRemoteIP (request : Request) : List IP × Option GoError :=
  match parseValues (FieldsFunc (HeaderGet request.Header "X-Forwarded-For") splitFn) [] with
  | (ipList, some err) => (ipList, some err)
  | (ipList, none) =>
    parseValues (FieldsFunc (HeaderGet request.Header "X-Real-IP") splitFn) ipList

/-! ## The plugin: Traefik methods -/

/-- Source function `CreateConfig`.  The fields the literal leaves out have
Go's zero value. -/
def CreateConfig : Config :=
  { AllowLocalRequests := false
    CidrFileFolder := ""
    CidrFileUpdate := true
    Countries := []
    LogAllowedRequests := false
    LogDetails := true
    LogLocalRequests := true }

/-- Source function `New`. -/
def New (w : World) (config : Config) (name : String) : NewResult × World :=
  if config.CidrFileFolder.length == 0 then
    (NewResult.error (GoError.errorf "the CIDR file folder is empty"), w)
  else if config.Countries.length == 0 then
    (NewResult.error (GoError.errorf "the list of allowed countries is empty"), w)
  else
    match InitializeAllowedIPRanges w config.Countries config.CidrFileFolder with
    | (Run.panic p, w1) => (NewResult.panic p, w1)
    | (Run.ok ranges, w1) =>
      (NewResult.handler
        { name := name
          allowedIPRanges := ranges
          allowLocalRequests := config.AllowLocalRequests
          cidrFileFolder := config.CidrFileFolder
          cidrFileUpdate := config.CidrFileUpdate
          countries := config.Countries
          logAllowedRequests := config.LogAllowedRequests
          logDetails := config.LogDetails
          logLocalRequests := config.LogLocalRequests }, w1)

/-- The first loop of `ServeHTTP`: the blocks of the first entry tagged
`private`, Go `nil` (no blocks) when there is none. -/
def findPrivateIPBlocks : List IpRangesTimestamp → List IPNet
  | [] => []
  | entry :: rest =>
    if entry.Country == PrivateIpAddressesTag then entry.IpRanges
    else findPrivateIPBlocks rest

/-- The statement under `Check whether an update is needed` in `ServeHTTP`:
the entry to use at this index, reloaded when the update is switched on and
the entry is old enough.  The clock is read only when `cidrFileUpdate` holds
(Go's `&&` is lazy). -/
def updateIfNeeded (p : traefik_allow_countries) (w : World) (entry : IpRangesTimestamp) :
    Run IpRangesTimestamp × World :=
  if p.cidrFileUpdate then
    match timeSince w entry.Timestamp with
    | (age, w1) =>
      if hoursAtLeast age HoursInMillis then
        CreateCountryIPBlocks w1 entry.Country p.cidrFileFolder
      else (Run.ok entry, w1)
  else (Run.ok entry, w)

/-- State at the end of the inner loop of `ServeHTTP` (`Check country ip ranges`). -/
structure CountryScan where
  found : Bool
  allowedIPRanges : List IpRangesTimestamp
  logs : List LogLine
  panicked : Option PanicValue
  world : World

/-- The inner loop of `ServeHTTP` over the indexes of `allowedIPRanges`:
`done` are the entries at the indexes already visited (as the loop left them),
the second list the entries still to visit. -/
def countryLoop (p : traefik_allow_countries) (url : String) (ip : IP) :
    List IpRangesTimestamp → List IpRangesTimestamp → World → CountryScan
  | done, [], w =>
    { found := false, allowedIPRanges := done, logs := [], panicked := none, world := w }
  | done, entry :: rest, w =>
    if entry.Country != PrivateIpAddressesTag then
      match updateIfNeeded p w entry with
      | (Run.panic pv, w1) =>
        { found := false, allowedIPRanges := done ++ entry :: rest, logs := [],
          panicked := some pv, world := w1 }
      | (Run.ok entry1, w1) =>
        if IsIpInList ip entry1.IpRanges then
          { found := true, allowedIPRanges := done ++ entry1 :: rest,
            logs := if p.logAllowedRequests then [LogLine.allowed p.name url ip] else [],
            panicked := none, world := w1 }
        else countryLoop p url ip (done ++ [entry1]) rest w1
    else countryLoop p url ip (done ++ [entry]) rest w

/-- The loop of `ServeHTTP` over the addresses of the request (`Iterate over
the addresses`), with the call of the next handler that follows it. -/
def serveLoop (p : traefik_allow_countries) (url : String) (privateIPBlocks : List IPNet) :
    List IP → List IpRangesTimestamp → World → List LogLine → Served
  | [], ranges, w, logs =>
    { calls := [Call.next], logs := logs, allowedIPRanges := ranges, panicked := none,
      world := w }
  | ipAddress :: rest, ranges, w, logs =>
    if IsPrivateIP ipAddress privateIPBlocks then
      if p.allowLocalRequests then
        { calls := [Call.next]
          logs := logs ++ (if p.logLocalRequests then [LogLine.localAllowed ipAddress url] else [])
          allowedIPRanges := ranges, panicked := none, world := w }
      else
        { calls := [Call.writeHeader StatusForbidden]
          logs := logs ++ (if p.logLocalRequests then [LogLine.localDenied ipAddress url] else [])
          allowedIPRanges := ranges, panicked := none, world := w }
    else
      let scan := countryLoop p url ipAddress [] ranges w
      match scan.panicked with
      | some pv =>
        { calls := [], logs := logs ++ scan.logs, allowedIPRanges := scan.allowedIPRanges,
          panicked := some pv, world := scan.world }
      | none =>
        if !scan.found then
          { calls := [Call.writeHeader StatusForbidden]
            logs := logs ++ scan.logs ++ [LogLine.denied p.name url ipAddress]
            allowedIPRanges := scan.allowedIPRanges, panicked := none, world := scan.world }
        else serveLoop p url privateIPBlocks rest scan.allowedIPRanges scan.world
          (logs ++ scan.logs)

/-- Source method `ServeHTTP`. -/
def ServeHTTP (p : traefik_allow_countries) (w : World) (request : Request) : Served :=
  match CollectRemoteIP request with
  | (_, some err) =>
    { calls := [Call.writeHeader StatusForbidden], logs := [LogLine.error err],
      allowedIPRanges := p.allowedIPRanges, panicked := none, world := w }
  | (requestIPAddressList, none) =>
    serveLoop p request.URL (findPrivateIPBlocks p.allowedIPRanges) requestIPAddressList
      p.allowedIPRanges w []

/-! ## Vocabulary of the statements -/

/-- Whether an entry is a country entry holding the address. -/
def inCountry (ip : IP) (entry : IpRangesTimestamp) : Bool :=
  entry.Country != PrivateIpAddressesTag && IsIpInList ip entry.IpRanges

/-- The calls a request ends with, read off the candidate list: the first
private candidate settles the request by `allowLocalRequests`, the first
candidate outside every country is refused, and the next handler is called
when the list runs out. -/
def verdictCalls (allowLocal : Bool) (privateIPBlocks : List IPNet)
    (ranges : List IpRangesTimestamp) : List IP → List Call
  | [] => [Call.next]
  | ip :: rest =>
    if IsPrivateIP ip privateIPBlocks then
      if allowLocal then [Call.next] else [Call.writeHeader StatusForbidden]
    else if ranges.any (inCountry ip) then verdictCalls allowLocal privateIPBlocks ranges rest
    else [Call.writeHeader StatusForbidden]

/-- A candidate fails its check: it is private while local requests are not
allowed, or it is not private and no block of a country entry contains it. -/
def failsCheck (p : traefik_allow_countries) (ip : IP) : Prop :=
  (IsPrivateIP ip (findPrivateIPBlocks p.allowedIPRanges) = true ∧
      p.allowLocalRequests = false) ∨
  (IsPrivateIP ip (findPrivateIPBlocks p.allowedIPRanges) = false ∧
      ∀ entry ∈ p.allowedIPRanges, entry.Country ≠ PrivateIpAddressesTag →
        ∀ block ∈ entry.IpRanges, Contains block ip = false)

instance (p : traefik_allow_countries) (ip : IP) : Decidable (failsCheck p ip) := by
  unfold failsCheck
  infer_instance

/-- The path `CreateCountryIPBlocks` opens for an address family and a country. -/
def cidrPath (w : World) (cidrFileFolder ipType country : String) : String :=
  cidrFileFolder ++ "/" ++ ipType ++ "/" ++ ToLower w.lower country ++ ".cidr"

/-- A file loads: it opens, the scanner ends without error and every line
(a blank line included) parses as a CIDR block. -/
def fileLoads (w : World) (path : String) : Bool :=
  match w.files path with
  | none => false
  | some fd => !fd.scanErr && (ScanLines fd.content).all (fun line => (ParseCIDR line).isSome)

/-- Both files of a country load. -/
def countryLoads (w : World) (cidrFileFolder country : String) : Bool :=
  fileLoads w (cidrPath w cidrFileFolder "ipv4" country) &&
    fileLoads w (cidrPath w cidrFileFolder "ipv6" country)

/-- The blocks on the lines of a file, in file order. -/
def fileBlocks (w : World) (path : String) : List IPNet :=
  match w.files path with
  | none => []
  | some fd => (ScanLines fd.content).filterMap ParseCIDR

/-- The world after `os.Open` on a path. -/
def openWorld (w : World) (path : String) : World :=
  { w with opened := w.opened ++ [path] }

/-- The blocks `InitializePrivateIPBlocks` returns. -/
def privateBlocks : List IPNet :=
  [{ IP := [127, 0, 0, 0], Mask := [255, 0, 0, 0] },
   { IP := [10, 0, 0, 0], Mask := [255, 0, 0, 0] },
   { IP := [172, 16, 0, 0], Mask := [255, 240, 0, 0] },
   { IP := [192, 168, 0, 0], Mask := [255, 255, 0, 0] },
   { IP := [169, 254, 0, 0], Mask := [255, 255, 0, 0] },
   { IP := [0, 0, 0, 0, 0, 0, 0, 0, 0, 0, 0, 0, 0, 0, 0, 1],
     Mask := [255, 255, 255, 255, 255, 255, 255, 255, 255, 255, 255, 255, 255, 255, 255, 255] },
   { IP := [254, 128, 0, 0, 0, 0, 0, 0, 0, 0, 0, 0, 0, 0, 0, 0],
     Mask := [255, 192, 0, 0, 0, 0, 0, 0, 0, 0, 0, 0, 0, 0, 0, 0] },
   { IP := [252, 0, 0, 0, 0, 0, 0, 0, 0, 0, 0, 0, 0, 0, 0, 0],
     Mask := [254, 0, 0, 0, 0, 0, 0, 0, 0, 0, 0, 0, 0, 0, 0, 0] }]

/-- The raw tokens `CollectRemoteIP` parses: the comma-separated fields of
`X-Forwarded-For`, then those of `X-Real-IP`. -/
def headerTokens (request : Request) : List String :=
  FieldsFunc (HeaderGet request.Header "X-Forwarded-For") splitFn ++
    FieldsFunc (HeaderGet request.Header "X-Real-IP") splitFn

/-- A handler with its three logging switches replaced. -/
def withLogFlags (p : traefik_allow_countries) (logAllowed logDetails logLocal : Bool) :
    traefik_allow_countries :=
  { p with
    logAllowedRequests := logAllowed
    logDetails := logDetails
    logLocalRequests := logLocal }

/-- The blocks of a country: those of its IPv4 file, then those of its IPv6 file. -/
def countryBlocks (w : World) (cidrFileFolder country : String) : List IPNet :=
  fileBlocks w (cidrPath w cidrFileFolder "ipv4" country) ++
    fileBlocks w (cidrPath w cidrFileFolder "ipv6" country)

/-- The reference verdict of claim C20, in the claim's words: with `P` the
candidates that precede the first private candidate (all of them when none is
private), the request is allowed when every address of `P` is contained in a
block of some country entry and, when a private candidate exists,
`allowLocalRequests` is true. -/
def referenceAllowed (allowLocal : Bool) (privateIPBlocks : List IPNet)
    (ranges : List IpRangesTimestamp) (ips : List IP) : Bool :=
  (ips.takeWhile (fun ip => !IsPrivateIP ip privateIPBlocks)).all
      (fun ip => ranges.any (fun entry =>
        entry.Country != PrivateIpAddressesTag &&
          entry.IpRanges.any (fun block => Contains block ip))) &&
    (if ips.any (fun ip => IsPrivateIP ip privateIPBlocks) then allowLocal else true)

/-! ## Example inputs -/

/-- Example file system: the folder `.test-data` with the two files of the
country `DE`, and nothing else. -/
def exFiles : String → Option FileData := fun path =>
  if path = ".test-data/ipv4/de.cidr" then some { content := "2.56.20.0/22\n", scanErr := false }
  else if path = ".test-data/ipv6/de.cidr" then
    some { content := "2a00:1158::/32\n", scanErr := false }
  else none

/-- Example world: the example files, a clock that advances one second per reading. -/
def exWorld : World :=
  { files := exFiles, clock := fun n => 1000000000 * n, lower := id, tick := 0, opened := [] }

/-- Example configuration: the defaults of `CreateConfig` with the folder
`.test-data` and the one country `DE`. -/
def exConfig (allowLocal : Bool) : Config :=
  { AllowLocalRequests := allowLocal
    CidrFileFolder := ".test-data"
    CidrFileUpdate := true
    Countries := ["DE"]
    LogAllowedRequests := false
    LogDetails := true
    LogLocalRequests := true }

/-- The registry `New` builds for the example configuration in the example world. -/
def exRanges : List IpRangesTimestamp :=
  [{ Country := "private"
     IpRanges :=
      [{ IP := [127, 0, 0, 0], Mask := [255, 0, 0, 0] },
       { IP := [10, 0, 0, 0], Mask := [255, 0, 0, 0] },
       { IP := [172, 16, 0, 0], Mask := [255, 240, 0, 0] },
       { IP := [192, 168, 0, 0], Mask := [255, 255, 0, 0] },
       { IP := [169, 254, 0, 0], Mask := [255, 255, 0, 0] },
       { IP := [0, 0, 0, 0, 0, 0, 0, 0, 0, 0, 0, 0, 0, 0, 0, 1],
         Mask := [255, 255, 255, 255, 255, 255, 255, 255, 255, 255, 255, 255, 255, 255, 255, 255] },
       { IP := [254, 128, 0, 0, 0, 0, 0, 0, 0, 0, 0, 0, 0, 0, 0, 0],
         Mask := [255, 192, 0, 0, 0, 0, 0, 0, 0, 0, 0, 0, 0, 0, 0, 0] },
       { IP := [252, 0, 0, 0, 0, 0, 0, 0, 0, 0, 0, 0, 0, 0, 0, 0],
         Mask := [254, 0, 0, 0, 0, 0, 0, 0, 0, 0, 0, 0, 0, 0, 0, 0] }]
     Timestamp := 0 },
   { Country := "DE"
     IpRanges :=
      [{ IP := [2, 56, 20, 0], Mask := [255, 255, 252, 0] },
       { IP := [42, 0, 17, 88, 0, 0, 0, 0, 0, 0, 0, 0, 0, 0, 0, 0],
         Mask := [255, 255, 255, 255, 0, 0, 0, 0, 0, 0, 0, 0, 0, 0, 0, 0] }]
     Timestamp := 1000000000 }]

/-- The handler `New` returns for the example configuration in the example world. -/
def exPlugin (allowLocal : Bool) : traefik_allow_countries :=
  { name := "AllowCountries"
    allowedIPRanges := exRanges
    allowLocalRequests := allowLocal
    cidrFileFolder := ".test-data"
    cidrFileUpdate := true
    countries := ["DE"]
    logAllowedRequests := false
    logDetails := true
    logLocalRequests := true }

/-- A request with the one header `X-Forwarded-For`, set to the given value. -/
def exRequest (xForwardedFor : String) : Request :=
  { Header := fun key => if key = "X-Forwarded-For" then [xForwardedFor] else []
    URL := "http://localhost" }

/-- The address `2.56.20.0` (in the example blocks of `DE`), as `net.ParseIP` returns it. -/
def ipDE : IP := [0, 0, 0, 0, 0, 0, 0, 0, 0, 0, 255, 255, 2, 56, 20, 0]

/-- The address `2.56.8.0` (in no example block). -/
def ipUS : IP := [0, 0, 0, 0, 0, 0, 0, 0, 0, 0, 255, 255, 2, 56, 8, 0]

/-- The private address `192.168.1.1`. -/
def ipLocal : IP := [0, 0, 0, 0, 0, 0, 0, 0, 0, 0, 255, 255, 192, 168, 1, 1]

/-- Example configuration with a second country, `GB`, that has no files in
the example world. -/
def exConfigTwo : Config :=
  { AllowLocalRequests := false
    CidrFileFolder := ".test-data"
    CidrFileUpdate := true
    Countries := ["DE", "GB"]
    LogAllowedRequests := false
    LogDetails := true
    LogLocalRequests := false }

/-- Example world in which the IPv4 file of `DE` ends with a blank line. -/
def blankWorld : World :=
  { files := fun path =>
      if path = ".test-data/ipv4/de.cidr" then
        some { content := "2.56.20.0/22\n\n", scanErr := false }
      else if path = ".test-data/ipv6/de.cidr" then
        some { content := "2a00:1158::/32\n", scanErr := false }
      else none
    clock := fun n => 1000000000 * n, lower := id, tick := 0, opened := [] }

/-- Example world of `TestAllowedCountry_WithCustomFileExtension`: the two
files of `AT` exist with the extension `netset`, and no other file. -/
def netsetWorld : World :=
  { files := fun path =>
      if path = ".test-data/ipv4/at.netset" then
        some { content := "2.16.16.0/22\n", scanErr := false }
      else if path = ".test-data/ipv6/at.netset" then
        some { content := "2a00:1a28::/32\n", scanErr := false }
      else none
    clock := fun n => 1000000000 * n, lower := id, tick := 0, opened := [] }

/-- The address `2.56.20.1`. -/
def ipDE1 : IP := [0, 0, 0, 0, 0, 0, 0, 0, 0, 0, 255, 255, 2, 56, 20, 1]

/-- A request without headers. -/
def bareRequest : Request := { Header := fun _ => [], URL := "http://localhost" }

/-- A request with the two headers `X-Forwarded-For` and `X-Real-IP` set. -/
def exRequestBoth (xForwardedFor xRealIp : String) : Request :=
  { Header := fun key =>
      if key = "X-Forwarded-For" then [xForwardedFor]
      else if key = "X-Real-IP" then [xRealIp] else []
    URL := "http://localhost" }

/-- The address `224.0.0.1`, link-local multicast. -/
def ipMulticast : IP := [0, 0, 0, 0, 0, 0, 0, 0, 0, 0, 255, 255, 224, 0, 0, 1]

/-- The private entry of the example registry. -/
def exEntryPrivate : IpRangesTimestamp :=
  { Country := "private", IpRanges := privateBlocks, Timestamp := 0 }

/-- An entry for `DE` holding the block 2.56.20.0/22. -/
def exEntryDE : IpRangesTimestamp :=
  { Country := "DE", IpRanges := [{ IP := [2, 56, 20, 0], Mask := [255, 255, 252, 0] }],
    Timestamp := 1000000000 }

/-- An entry for `GB` holding the block 1.186.0.0/16. -/
def exEntryGB : IpRangesTimestamp :=
  { Country := "GB", IpRanges := [{ IP := [1, 186, 0, 0], Mask := [255, 255, 0, 0] }],
    Timestamp := 2000000000 }

/-- The example handler with another registry. -/
def exPluginWith (ranges : List IpRangesTimestamp) : traefik_allow_countries :=
  { exPlugin false with allowedIPRanges := ranges, countries := ["DE", "GB"] }

/-- The address `1.186.0.0` (in the example block of `GB`). -/
def ipGB : IP := [0, 0, 0, 0, 0, 0, 0, 0, 0, 0, 255, 255, 1, 186, 0, 0]

/-! ## Lemmas: the clock and the update check -/

/-- A `Duration` never exceeds the largest 64-bit value. -/
theorem TimeSub_le_max (t u : Int) : TimeSub t u ≤ maxDuration := by
  unfold TimeSub
  split_ifs <;> simp only [maxDuration, minDuration] at * <;> omega

/-- No duration is `HoursInMillis` hours long: the age test of `ServeHTTP`
fails for every pair of instants. -/
theorem hoursAtLeast_TimeSub (t u : Int) : hoursAtLeast (TimeSub t u) HoursInMillis = false := by
  have h := TimeSub_le_max t u
  simp only [hoursAtLeast, HoursInMillis, Hour, maxDuration, decide_eq_false_iff_not] at *
  omega

/-- The update check hands back the entry it was given. -/
theorem updateIfNeeded_fst (p : traefik_allow_countries) (w : World) (entry : IpRangesTimestamp) :
    (updateIfNeeded p w entry).1 = Run.ok entry := by
  unfold updateIfNeeded
  by_cases hu : p.cidrFileUpdate = true
  · simp [hu, timeSince, timeNow, hoursAtLeast_TimeSub]
  · simp [hu]

/-- The inner loop never panics, leaves every entry as it was, and finds the
address exactly when a country entry still to visit holds it. -/
theorem countryLoop_spec (p : traefik_allow_countries) (url : String) (ip : IP) :
    ∀ (todo done : List IpRangesTimestamp) (w : World),
      (countryLoop p url ip done todo w).panicked = none ∧
      (countryLoop p url ip done todo w).allowedIPRanges = done ++ todo ∧
      (countryLoop p url ip done todo w).found = todo.any (inCountry ip) := by
  intro todo
  induction todo with
  | nil => intro done w; simp [countryLoop]
  | cons entry rest ih =>
    intro done w
    have hupd := updateIfNeeded_fst p w entry
    rcases hres : updateIfNeeded p w entry with ⟨r, w1⟩
    rw [hres] at hupd
    simp only at hupd
    subst hupd
    by_cases hc : (entry.Country != PrivateIpAddressesTag) = true
    · by_cases hin : IsIpInList ip entry.IpRanges = true
      · simp [countryLoop, hc, hres, hin, inCountry]
      · have h := ih (done ++ [entry]) w1
        simp only [Bool.not_eq_true] at hin
        simp [countryLoop, hc, hres, hin, inCountry, h]
    · have h := ih (done ++ [entry]) w
      simp only [Bool.not_eq_true] at hc
      simp [countryLoop, hc, inCountry, h]

/-! ## Lemmas: the verdict of `ServeHTTP` -/

/-- `IsIpInList` holds exactly when some block of the list contains the address. -/
theorem IsIpInList_iff (ip : IP) (list : List IPNet) :
    IsIpInList ip list = true ↔ ∃ block ∈ list, Contains block ip = true := by
  induction list with
  | nil => simp [IsIpInList]
  | cons block rest ih =>
    by_cases hb : Contains block ip = true
    · simp [IsIpInList, hb]
    · simp [IsIpInList, hb, ih]

/-- Some country entry of the registry holds the address, spelled out on blocks. -/
theorem any_inCountry_iff (ip : IP) (ranges : List IpRangesTimestamp) :
    ranges.any (inCountry ip) = true ↔
      ∃ entry ∈ ranges, entry.Country ≠ PrivateIpAddressesTag ∧
        ∃ block ∈ entry.IpRanges, Contains block ip = true := by
  simp [List.any_eq_true, inCountry, IsIpInList_iff]

/-- The address loop makes the calls of `verdictCalls`, keeps the registry and
does not panic. -/
theorem serveLoop_spec (p : traefik_allow_countries) (url : String)
    (privateIPBlocks : List IPNet) :
    ∀ (ips : List IP) (ranges : List IpRangesTimestamp) (w : World) (logs : List LogLine),
      (serveLoop p url privateIPBlocks ips ranges w logs).calls =
          verdictCalls p.allowLocalRequests privateIPBlocks ranges ips ∧
      (serveLoop p url privateIPBlocks ips ranges w logs).allowedIPRanges = ranges ∧
      (serveLoop p url privateIPBlocks ips ranges w logs).panicked = none := by
  intro ips
  induction ips with
  | nil => intro ranges w logs; simp [serveLoop, verdictCalls]
  | cons ip rest ih =>
    intro ranges w logs
    by_cases hp : IsPrivateIP ip privateIPBlocks = true
    · by_cases ha : p.allowLocalRequests = true <;> simp [serveLoop, verdictCalls, hp, ha]
    · obtain ⟨h1, h2, h3⟩ := countryLoop_spec p url ip ranges [] w
      simp only [List.nil_append] at h2
      simp only [Bool.not_eq_true] at hp
      by_cases hf : ranges.any (inCountry ip) = true
      · rw [hf] at h3
        have h := ih ranges (countryLoop p url ip [] ranges w).world
          (logs ++ (countryLoop p url ip [] ranges w).logs)
        simp only [serveLoop, verdictCalls, hp, h1, h2, h3, hf]
        simpa using h
      · simp only [Bool.not_eq_true] at hf
        rw [hf] at h3
        simp [serveLoop, verdictCalls, hp, h1, h2, h3, hf]

/-- When the candidate addresses are extracted, `ServeHTTP` makes the calls of
`verdictCalls` on them. -/
theorem ServeHTTP_calls_of_collected (p : traefik_allow_countries) (w : World)
    (request : Request) (ips : List IP) (hc : CollectRemoteIP request = (ips, none)) :
    (ServeHTTP p w request).calls =
      verdictCalls p.allowLocalRequests (findPrivateIPBlocks p.allowedIPRanges)
        p.allowedIPRanges ips := by
  simp only [ServeHTTP, hc]
  exact (serveLoop_spec p request.URL _ ips p.allowedIPRanges w []).1

/-- When the extraction fails, `ServeHTTP` writes 403 and makes no other call. -/
theorem ServeHTTP_calls_of_error (p : traefik_allow_countries) (w : World)
    (request : Request) (ips : List IP) (err : GoError)
    (hc : CollectRemoteIP request = (ips, some err)) :
    (ServeHTTP p w request).calls = [Call.writeHeader StatusForbidden] := by
  simp only [ServeHTTP, hc]

/-- A failing candidate ends the verdict with 403 when no private candidate
allowed before it cuts the loop short. -/
theorem verdictCalls_deny (p : traefik_allow_countries) (ip : IP) (post : List IP)
    (hfail : failsCheck p ip) :
    ∀ pre : List IP,
      (p.allowLocalRequests = false ∨
        ∀ x ∈ pre, IsPrivateIP x (findPrivateIPBlocks p.allowedIPRanges) = false) →
      verdictCalls p.allowLocalRequests (findPrivateIPBlocks p.allowedIPRanges)
        p.allowedIPRanges (pre ++ ip :: post) = [Call.writeHeader StatusForbidden] := by
  intro pre
  induction pre with
  | nil =>
    intro _
    rcases hfail with ⟨hp, ha⟩ | ⟨hp, hno⟩
    · simp [verdictCalls, hp, ha]
    · have hnone : p.allowedIPRanges.any (inCountry ip) = false := by
        rw [Bool.eq_false_iff]
        intro hany
        obtain ⟨entry, he, hc, block, hb, hcont⟩ := (any_inCountry_iff ip _).1 hany
        rw [hno entry he hc block hb] at hcont
        exact Bool.noConfusion hcont
      simp [verdictCalls, hp, hnone]
  | cons x pre ih =>
    intro hearly
    have hrest : p.allowLocalRequests = false ∨
        ∀ y ∈ pre, IsPrivateIP y (findPrivateIPBlocks p.allowedIPRanges) = false := by
      rcases hearly with h | h
      · exact Or.inl h
      · exact Or.inr (fun y hy => h y (List.mem_cons_of_mem _ hy))
    by_cases hx : IsPrivateIP x (findPrivateIPBlocks p.allowedIPRanges) = true
    · rcases hearly with h | h
      · simp [verdictCalls, hx, h]
      · have := h x (List.mem_cons_self _ _)
        rw [hx] at this
        exact Bool.noConfusion this
    · simp only [Bool.not_eq_true] at hx
      by_cases hany : p.allowedIPRanges.any (inCountry x) = true
      · simp only [List.cons_append, verdictCalls, hx, hany]
        simpa using ih hrest
      · simp only [Bool.not_eq_true] at hany
        simp [verdictCalls, hx, hany]

/-- With local requests allowed, a private candidate behind candidates that
all pass their checks ends the verdict with the call of the next handler,
whatever follows it. -/
theorem verdictCalls_allow_at_private (p : traefik_allow_countries) (ip : IP) (post : List IP)
    (hallow : p.allowLocalRequests = true)
    (hpriv : IsPrivateIP ip (findPrivateIPBlocks p.allowedIPRanges) = true) :
    ∀ pre : List IP, (∀ x ∈ pre, ¬ failsCheck p x) →
      verdictCalls p.allowLocalRequests (findPrivateIPBlocks p.allowedIPRanges)
        p.allowedIPRanges (pre ++ ip :: post) = [Call.next] := by
  intro pre
  induction pre with
  | nil => intro _; simp [verdictCalls, hpriv, hallow]
  | cons x pre ih =>
    intro hpass
    have hrest : ∀ y ∈ pre, ¬ failsCheck p y :=
      fun y hy => hpass y (List.mem_cons_of_mem _ hy)
    by_cases hx : IsPrivateIP x (findPrivateIPBlocks p.allowedIPRanges) = true
    · simp [verdictCalls, hx, hallow]
    · simp only [Bool.not_eq_true] at hx
      by_cases hany : p.allowedIPRanges.any (inCountry x) = true
      · simp only [List.cons_append, verdictCalls, hx, hany]
        simpa using ih hrest
      · exfalso
        apply hpass x (List.mem_cons_self _ _)
        refine Or.inr ⟨hx, ?_⟩
        intro entry he hc block hb
        by_contra hcont
        simp only [Bool.not_eq_false] at hcont
        exact hany ((any_inCountry_iff x _).2 ⟨entry, he, hc, block, hb, hcont⟩)

/-! ## Lemmas: loading the country files -/

/-- Lines that all parse give their blocks, appended in order. -/
theorem parseBlocks_ok (lines : List String) :
    ∀ blocks : List IPNet, lines.all (fun line => (ParseCIDR line).isSome) = true →
      parseBlocks lines blocks = Run.ok (blocks ++ lines.filterMap ParseCIDR) := by
  induction lines with
  | nil => intro blocks _; simp [parseBlocks]
  | cons line rest ih =>
    intro blocks h
    simp only [List.all_cons, Bool.and_eq_true] at h
    obtain ⟨block, hb⟩ := Option.isSome_iff_exists.1 h.1
    simp [parseBlocks, hb, ih (blocks ++ [block]) h.2]

/-- A line that does not parse makes the block loop panic. -/
theorem parseBlocks_panic (lines : List String) :
    ∀ blocks : List IPNet, lines.all (fun line => (ParseCIDR line).isSome) = false →
      ∃ pv, parseBlocks lines blocks = Run.panic pv := by
  induction lines with
  | nil => intro blocks h; simp at h
  | cons line rest ih =>
    intro blocks h
    cases hb : ParseCIDR line with
    | none => exact ⟨PanicValue.parseError line, by simp [parseBlocks, hb]⟩
    | some block =>
      have hrest : rest.all (fun line => (ParseCIDR line).isSome) = false := by
        simpa [List.all_cons, hb] using h
      obtain ⟨pv, hpv⟩ := ih (blocks ++ [block]) hrest
      exact ⟨pv, by simp [parseBlocks, hb, hpv]⟩

/-- One turn of the family loop on a file that loads: its blocks are appended
and the loop goes on. -/
theorem readFamilies_cons_loads (country folder ipType : String) (rest : List String)
    (w : World) (blocks : List IPNet)
    (h : fileLoads w (cidrPath w folder ipType country) = true) :
    readFamilies country folder (ipType :: rest) w blocks =
      readFamilies country folder rest (openWorld w (cidrPath w folder ipType country))
        (blocks ++ fileBlocks w (cidrPath w folder ipType country)) := by
  unfold fileLoads at h
  unfold fileBlocks
  cases hf : w.files (cidrPath w folder ipType country) with
  | none => simp [hf] at h
  | some fd =>
    simp only [hf, Bool.and_eq_true, Bool.not_eq_true'] at h
    have hf1 : w.files (folder ++ "/" ++ ipType ++ "/" ++ ToLower w.lower country ++ ".cidr")
        = some fd := hf
    simp [readFamilies, ReadFile, hf1, h.1, parseBlocks_ok _ blocks h.2, openWorld, cidrPath]

/-- One turn of the family loop on a file that does not load: a panic, after
the file was opened. -/
theorem readFamilies_cons_fails (country folder ipType : String) (rest : List String)
    (w : World) (blocks : List IPNet)
    (h : fileLoads w (cidrPath w folder ipType country) = false) :
    ∃ pv, readFamilies country folder (ipType :: rest) w blocks =
      (Run.panic pv, openWorld w (cidrPath w folder ipType country)) := by
  unfold fileLoads at h
  cases hf : w.files (cidrPath w folder ipType country) with
  | none =>
    have hf1 : w.files (folder ++ "/" ++ ipType ++ "/" ++ ToLower w.lower country ++ ".cidr")
        = none := hf
    exact ⟨PanicValue.readFailed ipType country (GoError.os (cidrPath w folder ipType country)),
      by simp [readFamilies, ReadFile, hf1, openWorld, cidrPath]⟩
  | some fd =>
    have hf1 : w.files (folder ++ "/" ++ ipType ++ "/" ++ ToLower w.lower country ++ ".cidr")
        = some fd := hf
    simp only [hf] at h
    cases he : fd.scanErr with
    | true =>
      exact ⟨PanicValue.readFailed ipType country (GoError.os (cidrPath w folder ipType country)),
        by simp [readFamilies, ReadFile, hf1, he, openWorld, cidrPath]⟩
    | false =>
      simp only [he, Bool.not_false, Bool.true_and] at h
      obtain ⟨pv, hpv⟩ := parseBlocks_panic _ blocks h
      exact ⟨pv, by simp [readFamilies, ReadFile, hf1, he, hpv, openWorld, cidrPath]⟩

/-- Opening a file changes neither the file system nor the case tables. -/
theorem countryLoads_openWorld (w : World) (path folder country : String) :
    countryLoads (openWorld w path) folder country = countryLoads w folder country := rfl

/-- A country whose files load gives an entry with the blocks of the two
files, IPv4 first; the world has the two files opened and the clock read
once. -/
theorem CreateCountryIPBlocks_loads (w : World) (country folder : String)
    (h : countryLoads w folder country = true) :
    CreateCountryIPBlocks w country folder =
      (Run.ok { Country := country
                IpRanges := fileBlocks w (cidrPath w folder "ipv4" country) ++
                  fileBlocks w (cidrPath w folder "ipv6" country)
                Timestamp := w.clock w.tick },
       { w with
         tick := w.tick + 1
         opened := w.opened ++ [cidrPath w folder "ipv4" country] ++
           [cidrPath w folder "ipv6" country] }) := by
  simp only [countryLoads, Bool.and_eq_true] at h
  have h6 : fileLoads (openWorld w (cidrPath w folder "ipv4" country))
      (cidrPath (openWorld w (cidrPath w folder "ipv4" country)) folder "ipv6" country)
      = true := h.2
  unfold CreateCountryIPBlocks
  rw [readFamilies_cons_loads country folder "ipv4" ["ipv6"] w [] h.1,
    readFamilies_cons_loads country folder "ipv6" [] _ _ h6]
  simp only [readFamilies, timeNow, List.nil_append]
  rfl

/-- A country with a file that does not load makes `CreateCountryIPBlocks` panic. -/
theorem CreateCountryIPBlocks_fails (w : World) (country folder : String)
    (h : countryLoads w folder country = false) :
    ∃ pv w1, CreateCountryIPBlocks w country folder = (Run.panic pv, w1) := by
  unfold CreateCountryIPBlocks
  cases h4 : fileLoads w (cidrPath w folder "ipv4" country) with
  | false =>
    obtain ⟨pv, hpv⟩ := readFamilies_cons_fails country folder "ipv4" ["ipv6"] w [] h4
    exact ⟨pv, _, by rw [hpv]⟩
  | true =>
    have h6 : fileLoads (openWorld w (cidrPath w folder "ipv4" country))
        (cidrPath (openWorld w (cidrPath w folder "ipv4" country)) folder "ipv6" country)
        = false := by
      simpa [countryLoads, h4] using h
    obtain ⟨pv, hpv⟩ := readFamilies_cons_fails country folder "ipv6" [] _
      ([] ++ fileBlocks w (cidrPath w folder "ipv4" country)) h6
    exact ⟨pv, _, by rw [readFamilies_cons_loads country folder "ipv4" ["ipv6"] w [] h4, hpv]⟩

/-- Every built-in CIDR literal parses. -/
theorem InitializePrivateIPBlocks_eq : InitializePrivateIPBlocks = Run.ok privateBlocks := by
  decide

/-- When every country loads, the country loop returns a registry. -/
theorem appendCountries_loads (folder : String) :
    ∀ (countries : List String) (w : World) (acc : List IpRangesTimestamp),
      (∀ c ∈ countries, countryLoads w folder c = true) →
      ∃ ranges w1, appendCountries folder countries w acc = (Run.ok ranges, w1) := by
  intro countries
  induction countries with
  | nil => intro w acc _; exact ⟨acc, w, rfl⟩
  | cons c rest ih =>
    intro w acc h
    have hc := CreateCountryIPBlocks_loads w c folder (h c (List.mem_cons_self _ _))
    obtain ⟨ranges, w1, hr⟩ := ih
      { w with
        tick := w.tick + 1
        opened := w.opened ++ [cidrPath w folder "ipv4" c] ++ [cidrPath w folder "ipv6" c] }
      (acc ++ [{ Country := c
                 IpRanges := fileBlocks w (cidrPath w folder "ipv4" c) ++
                   fileBlocks w (cidrPath w folder "ipv6" c)
                 Timestamp := w.clock w.tick }])
      (fun d hd => h d (List.mem_cons_of_mem _ hd))
    exact ⟨ranges, w1, by simp only [appendCountries, hc, hr]⟩

/-- When some country does not load, the country loop panics. -/
theorem appendCountries_fails (folder : String) :
    ∀ (countries : List String) (w : World) (acc : List IpRangesTimestamp),
      (∃ c ∈ countries, countryLoads w folder c = false) →
      ∃ pv w1, appendCountries folder countries w acc = (Run.panic pv, w1) := by
  intro countries
  induction countries with
  | nil => intro w acc h; obtain ⟨c, hc, _⟩ := h; cases hc
  | cons c rest ih =>
    intro w acc h
    cases hl : countryLoads w folder c with
    | false =>
      obtain ⟨pv, w1, hpv⟩ := CreateCountryIPBlocks_fails w c folder hl
      exact ⟨pv, w1, by simp only [appendCountries, hpv]⟩
    | true =>
      have hc := CreateCountryIPBlocks_loads w c folder hl
      obtain ⟨d, hd, hdl⟩ := h
      have hdrest : d ∈ rest := by
        rcases List.mem_cons.1 hd with heq | hmem
        · subst heq; rw [hl] at hdl; exact Bool.noConfusion hdl
        · exact hmem
      obtain ⟨pv, w1, hpv⟩ := ih
        { w with
          tick := w.tick + 1
          opened := w.opened ++ [cidrPath w folder "ipv4" c] ++ [cidrPath w folder "ipv6" c] }
        (acc ++ [{ Country := c
                   IpRanges := fileBlocks w (cidrPath w folder "ipv4" c) ++
                     fileBlocks w (cidrPath w folder "ipv6" c)
                   Timestamp := w.clock w.tick }])
        ⟨d, hdrest, hdl⟩
      exact ⟨pv, w1, by simp only [appendCountries, hc, hpv]⟩

/-! ## Lemmas: `New` -/

/-- A Go string has length zero exactly when it is the empty string. -/
theorem length_beq_zero_iff (s : String) : (s.length == 0) = true ↔ s = "" := by
  rcases s with ⟨d⟩
  cases d with
  | nil => simp [String.length]
  | cons c cs =>
    simp only [String.length, List.length_cons, beq_iff_eq, Nat.add_one_ne_zero, false_iff]
    intro h
    have h1 : (c :: cs) = [] := congrArg String.data h
    exact List.noConfusion h1

/-- A list has length zero exactly when it is empty. -/
theorem list_length_beq_zero_iff {α : Type} (l : List α) : (l.length == 0) = true ↔ l = [] := by
  cases l <;> simp

/-- With a folder and a country given, `New` returns what
`InitializeAllowedIPRanges` leaves it: a handler or a panic, never an error. -/
theorem New_of_configured (w : World) (config : Config) (name : String)
    (hf : config.CidrFileFolder ≠ "") (hc : config.Countries ≠ []) :
    New w config name =
      match InitializeAllowedIPRanges w config.Countries config.CidrFileFolder with
      | (Run.panic p, w1) => (NewResult.panic p, w1)
      | (Run.ok ranges, w1) =>
        (NewResult.handler
          { name := name
            allowedIPRanges := ranges
            allowLocalRequests := config.AllowLocalRequests
            cidrFileFolder := config.CidrFileFolder
            cidrFileUpdate := config.CidrFileUpdate
            countries := config.Countries
            logAllowedRequests := config.LogAllowedRequests
            logDetails := config.LogDetails
            logLocalRequests := config.LogLocalRequests }, w1) := by
  have h1 : (config.CidrFileFolder.length == 0) = false := by
    rw [Bool.eq_false_iff]; intro h; exact hf ((length_beq_zero_iff _).1 h)
  have h2 : (config.Countries.length == 0) = false := by
    rw [Bool.eq_false_iff]; intro h; exact hc ((list_length_beq_zero_iff _).1 h)
  simp only [New, h1, h2, Bool.false_eq_true, if_false]

/-! ## Lemmas: `CollectRemoteIP` -/

/-- Values that all parse give their addresses, appended in order, and no error. -/
theorem parseValues_ok (values : List String) :
    ∀ ipList : List IP, values.all (fun v => (netParseIP v).isSome) = true →
      parseValues values ipList = (ipList ++ values.filterMap netParseIP, none) := by
  induction values with
  | nil => intro ipList _; simp [parseValues]
  | cons v rest ih =>
    intro ipList h
    simp only [List.all_cons, Bool.and_eq_true] at h
    obtain ⟨ip, hip⟩ := Option.isSome_iff_exists.1 h.1
    simp [parseValues, ParseIP, hip, ih (ipList ++ [ip]) h.2]

/-- A value that does not parse makes the value loop return an error. -/
theorem parseValues_err (values : List String) :
    ∀ ipList : List IP, values.all (fun v => (netParseIP v).isSome) = false →
      ∃ l err, parseValues values ipList = (l, some err) := by
  induction values with
  | nil => intro ipList h; simp at h
  | cons v rest ih =>
    intro ipList h
    cases hv : netParseIP v with
    | none =>
      exact ⟨ipList, GoError.errorf
        ("parsing failed: " ++ ("unable to parse IP from address [" ++ v ++ "]")),
        by simp only [parseValues, ParseIP, hv]⟩
    | some ip =>
      have hrest : rest.all (fun v => (netParseIP v).isSome) = false := by
        simpa [List.all_cons, hv] using h
      obtain ⟨l, err, hl⟩ := ih (ipList ++ [ip]) hrest
      exact ⟨l, err, by simp only [parseValues, ParseIP, hv, hl]⟩

/-- When every raw token parses, `CollectRemoteIP` returns their addresses in order. -/
theorem CollectRemoteIP_ok (request : Request)
    (h : (headerTokens request).all (fun v => (netParseIP v).isSome) = true) :
    CollectRemoteIP request = ((headerTokens request).filterMap netParseIP, none) := by
  simp only [headerTokens, List.all_append, Bool.and_eq_true] at h
  simp only [CollectRemoteIP, parseValues_ok _ [] h.1, parseValues_ok _ _ h.2, headerTokens,
    List.nil_append, List.filterMap_append]

/-- When some raw token does not parse, `CollectRemoteIP` returns an error. -/
theorem CollectRemoteIP_err (request : Request)
    (h : (headerTokens request).all (fun v => (netParseIP v).isSome) = false) :
    ∃ l err, CollectRemoteIP request = (l, some err) := by
  cases h1 : (FieldsFunc (HeaderGet request.Header "X-Forwarded-For") splitFn).all
      (fun v => (netParseIP v).isSome) with
  | false =>
    obtain ⟨l, err, hl⟩ := parseValues_err _ [] h1
    exact ⟨l, err, by simp only [CollectRemoteIP, hl]⟩
  | true =>
    have h2 : (FieldsFunc (HeaderGet request.Header "X-Real-IP") splitFn).all
        (fun v => (netParseIP v).isSome) = false := by
      simpa [headerTokens, List.all_append, h1] using h
    obtain ⟨l, err, hl⟩ := parseValues_err _
      ([] ++ (FieldsFunc (HeaderGet request.Header "X-Forwarded-For") splitFn).filterMap
        netParseIP) h2
    exact ⟨l, err, by simp only [CollectRemoteIP, parseValues_ok _ [] h1, hl]⟩

/-- A turn of the IPv6 loop on a text that starts with a space fails. -/
theorem parseIPv6Loop_space (turns : Nat) (t : List Char) (ip : List Nat) (ell : Option Nat) :
    parseIPv6Loop (turns + 1) (' ' :: t) ip ell = none := by
  have hhex : hexVal ' ' = none := by decide
  simp [parseIPv6Loop, parseHexGroup, hhex]

/-- An IPv6 text that starts with a space does not parse. -/
theorem parseIPv6_space (cs : List Char) : parseIPv6 (' ' :: cs) = none := by
  have hne : ((' ' : Char) != '%') = true := by decide
  have hlead : (List.take 2 (' ' :: List.takeWhile (fun c => c != '%') cs)
        == [':', ':']) = false := by
    simp [List.take]
  unfold parseIPv6
  simp only [List.takeWhile_cons, hne, if_true, List.dropWhile_cons, hlead, Bool.false_and,
    Bool.false_eq_true, if_false, parseIPv6Loop_space 7]
  split_ifs <;> rfl

/-- A text that starts with a space is not an address for `net.ParseIP`. -/
theorem netParseIP_leading_space (cs : List Char) : netParseIP (String.mk (' ' :: cs)) = none := by
  have haddr : ParseAddr (' ' :: cs) = none := by
    have hsep : firstSep (' ' :: cs) = firstSep cs := by
      simp [firstSep]
    unfold ParseAddr
    rw [hsep]
    cases firstSep cs with
    | none => rfl
    | some c =>
      have h4 : parseIPv4 (' ' :: cs) = none := by
        simp [parseIPv4, parseIPv4Fields, isDigit]
      simp only [h4, parseIPv6_space, Option.map_none']
      split_ifs <;> rfl
  simp only [netParseIP, haddr]

/-! ## Lemmas: the example handler -/

/-- The example handler is the one `New` returns for the example configuration
in the example world, after opening the two files of `DE`. -/
theorem exPlugin_from_New (allowLocal : Bool) :
    (New exWorld (exConfig allowLocal) "AllowCountries").1
        = NewResult.handler (exPlugin allowLocal) ∧
    (New exWorld (exConfig allowLocal) "AllowCountries").2.opened
        = [".test-data/ipv4/de.cidr", ".test-data/ipv6/de.cidr"] := by
  cases allowLocal <;> decide

/-! ## Lemmas: what `ServeHTTP` leaves alone, the registry layout, the reference verdict -/

/-- The update check does not look at the logging switches. -/
theorem updateIfNeeded_withLogFlags (p : traefik_allow_countries) (a b c : Bool) (w : World)
    (entry : IpRangesTimestamp) :
    updateIfNeeded (withLogFlags p a b c) w entry = updateIfNeeded p w entry := rfl

/-- The inner loop reaches the same state, logs apart, whatever the logging switches. -/
theorem countryLoop_withLogFlags (p : traefik_allow_countries) (a b c : Bool) (url : String)
    (ip : IP) :
    ∀ (todo done : List IpRangesTimestamp) (w : World),
      (countryLoop (withLogFlags p a b c) url ip done todo w).found
        = (countryLoop p url ip done todo w).found ∧
      (countryLoop (withLogFlags p a b c) url ip done todo w).allowedIPRanges
        = (countryLoop p url ip done todo w).allowedIPRanges ∧
      (countryLoop (withLogFlags p a b c) url ip done todo w).panicked
        = (countryLoop p url ip done todo w).panicked ∧
      (countryLoop (withLogFlags p a b c) url ip done todo w).world
        = (countryLoop p url ip done todo w).world := by
  intro todo
  induction todo with
  | nil => intro done w; simp [countryLoop]
  | cons entry rest ih =>
    intro done w
    unfold countryLoop
    rw [updateIfNeeded_withLogFlags]
    by_cases hc : (entry.Country != PrivateIpAddressesTag) = true
    · simp only [hc, if_true]
      rcases hres : updateIfNeeded p w entry with ⟨r, w1⟩
      cases r with
      | panic pv => simp
      | ok entry1 =>
        by_cases hin : IsIpInList ip entry1.IpRanges = true
        · simp [hin]
        · simp only [Bool.not_eq_true] at hin
          simp only [hin, Bool.false_eq_true, if_false]
          exact ih (done ++ [entry1]) w1
    · simp only [hc, if_false]
      exact ih (done ++ [entry]) w

/-- The address loop reaches the same state, logs apart, whatever the logging
switches and the lines logged before. -/
theorem serveLoop_withLogFlags (p : traefik_allow_countries) (a b c : Bool) (url : String)
    (privateIPBlocks : List IPNet) :
    ∀ (ips : List IP) (ranges : List IpRangesTimestamp) (w : World) (logs1 logs2 : List LogLine),
      (serveLoop (withLogFlags p a b c) url privateIPBlocks ips ranges w logs1).calls
        = (serveLoop p url privateIPBlocks ips ranges w logs2).calls ∧
      (serveLoop (withLogFlags p a b c) url privateIPBlocks ips ranges w logs1).allowedIPRanges
        = (serveLoop p url privateIPBlocks ips ranges w logs2).allowedIPRanges ∧
      (serveLoop (withLogFlags p a b c) url privateIPBlocks ips ranges w logs1).panicked
        = (serveLoop p url privateIPBlocks ips ranges w logs2).panicked ∧
      (serveLoop (withLogFlags p a b c) url privateIPBlocks ips ranges w logs1).world
        = (serveLoop p url privateIPBlocks ips ranges w logs2).world := by
  intro ips
  induction ips with
  | nil => intro ranges w logs1 logs2; simp [serveLoop]
  | cons ip rest ih =>
    intro ranges w logs1 logs2
    obtain ⟨h1, h2, h3, h4⟩ := countryLoop_withLogFlags p a b c url ip ranges [] w
    have hallow : (withLogFlags p a b c).allowLocalRequests = p.allowLocalRequests := rfl
    unfold serveLoop
    by_cases hp : IsPrivateIP ip privateIPBlocks = true
    · by_cases ha : p.allowLocalRequests = true <;> simp [hp, ha, hallow]
    · simp only [hp, if_false, h1, h2, h3, h4]
      cases hpan : (countryLoop p url ip [] ranges w).panicked with
      | some pv => simp
      | none =>
        by_cases hf : (countryLoop p url ip [] ranges w).found = true
        · simp only [hf, Bool.not_true, Bool.false_eq_true, if_false]
          exact ih _ _ _ _
        · simp only [Bool.not_eq_true] at hf
          simp [hf]

/-- `ServeHTTP` with other logging switches: same calls, registry, panic and world. -/
theorem ServeHTTP_withLogFlags (p : traefik_allow_countries) (a b c : Bool) (w : World)
    (request : Request) :
    (ServeHTTP (withLogFlags p a b c) w request).calls = (ServeHTTP p w request).calls ∧
    (ServeHTTP (withLogFlags p a b c) w request).allowedIPRanges
      = (ServeHTTP p w request).allowedIPRanges ∧
    (ServeHTTP (withLogFlags p a b c) w request).panicked = (ServeHTTP p w request).panicked ∧
    (ServeHTTP (withLogFlags p a b c) w request).world = (ServeHTTP p w request).world := by
  unfold ServeHTTP
  rcases hc : CollectRemoteIP request with ⟨ips, err⟩
  cases err with
  | some e => exact ⟨rfl, rfl, rfl, rfl⟩
  | none => exact serveLoop_withLogFlags p a b c request.URL _ ips p.allowedIPRanges w [] []

/-- A list of texts that parse to the given values parses to them under `filterMap`. -/
theorem filterMap_of_map_some {α β : Type} (f : α → Option β) (xs : List α) :
    ∀ ys : List β, xs.map f = ys.map some →
      xs.filterMap f = ys ∧ xs.all (fun x => (f x).isSome) = true := by
  induction xs with
  | nil =>
    intro ys h
    cases ys with
    | nil => simp
    | cons y ys => simp at h
  | cons x xs ih =>
    intro ys h
    cases ys with
    | nil => simp at h
    | cons y ys =>
      simp only [List.map_cons, List.cons.injEq] at h
      obtain ⟨h1, h2⟩ := ih ys h.2
      simp [List.filterMap_cons, h.1, h1, h2]

/-- The country loop on countries that all load: it appends one entry per
country, in order, labelled with the country and holding its blocks. -/
theorem appendCountries_loads_exact (w0 : World) (folder : String) :
    ∀ (countries : List String) (w : World) (acc : List IpRangesTimestamp),
      w.files = w0.files → w.lower = w0.lower →
      (∀ c ∈ countries, countryLoads w0 folder c = true) →
      ∃ tail w1, appendCountries folder countries w acc = (Run.ok (acc ++ tail), w1) ∧
        tail.map (fun e => e.Country) = countries ∧
        tail.map (fun e => e.IpRanges) = countries.map (countryBlocks w0 folder) := by
  intro countries
  induction countries with
  | nil => intro w acc _ _ _; exact ⟨[], w, by simp [appendCountries], rfl, rfl⟩
  | cons c rest ih =>
    intro w acc hfiles hlower h
    have hpath : ∀ t, cidrPath w folder t c = cidrPath w0 folder t c := by
      intro t; simp only [cidrPath, hlower]
    have hblocks : ∀ path, fileBlocks w path = fileBlocks w0 path := by
      intro path; simp only [fileBlocks, hfiles]
    have hloads : countryLoads w folder c = true := by
      have := h c (List.mem_cons_self _ _)
      simpa only [countryLoads, fileLoads, hfiles, hpath] using this
    have hc := CreateCountryIPBlocks_loads w c folder hloads
    obtain ⟨tail, w1, hr, hcs, hbs⟩ := ih
      { w with
        tick := w.tick + 1
        opened := w.opened ++ [cidrPath w folder "ipv4" c] ++ [cidrPath w folder "ipv6" c] }
      (acc ++ [{ Country := c
                 IpRanges := fileBlocks w (cidrPath w folder "ipv4" c) ++
                   fileBlocks w (cidrPath w folder "ipv6" c)
                 Timestamp := w.clock w.tick }])
      hfiles hlower (fun d hd => h d (List.mem_cons_of_mem _ hd))
    refine ⟨{ Country := c
              IpRanges := fileBlocks w (cidrPath w folder "ipv4" c) ++
                fileBlocks w (cidrPath w folder "ipv6" c)
              Timestamp := w.clock w.tick } :: tail, w1, ?_, ?_, ?_⟩
    · simp only [appendCountries, hc]
      simpa using hr
    · simp [hcs]
    · simp [countryBlocks, hpath, hblocks, hbs]

/-- The update check opens no file. -/
theorem updateIfNeeded_opened (p : traefik_allow_countries) (w : World)
    (entry : IpRangesTimestamp) : (updateIfNeeded p w entry).2.opened = w.opened := by
  unfold updateIfNeeded
  by_cases hu : p.cidrFileUpdate = true
  · simp [hu, timeSince, timeNow, hoursAtLeast_TimeSub]
  · simp [hu]

/-- The inner loop opens no file. -/
theorem countryLoop_opened (p : traefik_allow_countries) (url : String) (ip : IP) :
    ∀ (todo done : List IpRangesTimestamp) (w : World),
      (countryLoop p url ip done todo w).world.opened = w.opened := by
  intro todo
  induction todo with
  | nil => intro done w; simp [countryLoop]
  | cons entry rest ih =>
    intro done w
    have hupd := updateIfNeeded_fst p w entry
    have hop := updateIfNeeded_opened p w entry
    rcases hres : updateIfNeeded p w entry with ⟨r, w1⟩
    rw [hres] at hupd hop
    simp only at hupd hop
    subst hupd
    by_cases hc : (entry.Country != PrivateIpAddressesTag) = true
    · by_cases hin : IsIpInList ip entry.IpRanges = true
      · simp [countryLoop, hc, hres, hin, hop]
      · simp only [Bool.not_eq_true] at hin
        simp [countryLoop, hc, hres, hin, ih (done ++ [entry]) w1, hop]
    · simp only [Bool.not_eq_true] at hc
      simp [countryLoop, hc, ih (done ++ [entry]) w]

/-- The address loop opens no file. -/
theorem serveLoop_opened (p : traefik_allow_countries) (url : String)
    (privateIPBlocks : List IPNet) :
    ∀ (ips : List IP) (ranges : List IpRangesTimestamp) (w : World) (logs : List LogLine),
      (serveLoop p url privateIPBlocks ips ranges w logs).world.opened = w.opened := by
  intro ips
  induction ips with
  | nil => intro ranges w logs; simp [serveLoop]
  | cons ip rest ih =>
    intro ranges w logs
    by_cases hp : IsPrivateIP ip privateIPBlocks = true
    · by_cases ha : p.allowLocalRequests = true <;> simp [serveLoop, hp, ha]
    · obtain ⟨h1, h2, h3⟩ := countryLoop_spec p url ip ranges [] w
      have h4 := countryLoop_opened p url ip ranges [] w
      simp only [List.nil_append] at h2
      simp only [Bool.not_eq_true] at hp
      by_cases hf : (countryLoop p url ip [] ranges w).found = true
      · have h := ih ranges (countryLoop p url ip [] ranges w).world
          (logs ++ (countryLoop p url ip [] ranges w).logs)
        simp only [serveLoop, hp, h1, h2, hf]
        simpa [h4] using h
      · simp only [Bool.not_eq_true] at hf
        simp [serveLoop, hp, h1, hf, h4]

/-- `ServeHTTP` leaves the registry as it found it. -/
theorem ServeHTTP_registry (p : traefik_allow_countries) (w : World) (request : Request) :
    (ServeHTTP p w request).allowedIPRanges = p.allowedIPRanges := by
  unfold ServeHTTP
  rcases hc : CollectRemoteIP request with ⟨ips, err⟩
  cases err with
  | some e => rfl
  | none => exact (serveLoop_spec p request.URL _ ips p.allowedIPRanges w []).2.1

/-- `ServeHTTP` does not panic. -/
theorem ServeHTTP_panicked (p : traefik_allow_countries) (w : World) (request : Request) :
    (ServeHTTP p w request).panicked = none := by
  unfold ServeHTTP
  rcases hc : CollectRemoteIP request with ⟨ips, err⟩
  cases err with
  | some e => rfl
  | none => exact (serveLoop_spec p request.URL _ ips p.allowedIPRanges w []).2.2

/-- `ServeHTTP` opens no file. -/
theorem ServeHTTP_opened (p : traefik_allow_countries) (w : World) (request : Request) :
    (ServeHTTP p w request).world.opened = w.opened := by
  unfold ServeHTTP
  rcases hc : CollectRemoteIP request with ⟨ips, err⟩
  cases err with
  | some e => rfl
  | none => exact serveLoop_opened p request.URL _ ips p.allowedIPRanges w []

/-- The calls of a verdict are one call of the next handler or one 403. -/
theorem verdictCalls_cases (allowLocal : Bool) (privateIPBlocks : List IPNet)
    (ranges : List IpRangesTimestamp) (ips : List IP) :
    verdictCalls allowLocal privateIPBlocks ranges ips = [Call.next] ∨
    verdictCalls allowLocal privateIPBlocks ranges ips = [Call.writeHeader StatusForbidden] := by
  induction ips with
  | nil => exact Or.inl rfl
  | cons ip rest ih =>
    unfold verdictCalls
    split_ifs
    · exact Or.inl rfl
    · exact Or.inr rfl
    · exact ih
    · exact Or.inr rfl

/-- The calls of `ServeHTTP` are one call of the next handler or one 403. -/
theorem ServeHTTP_calls_cases (p : traefik_allow_countries) (w : World) (request : Request) :
    (ServeHTTP p w request).calls = [Call.next] ∨
    (ServeHTTP p w request).calls = [Call.writeHeader StatusForbidden] := by
  rcases hc : CollectRemoteIP request with ⟨ips, err⟩
  cases err with
  | some e => exact Or.inr (ServeHTTP_calls_of_error p w request ips e hc)
  | none =>
    rw [ServeHTTP_calls_of_collected p w request ips hc]
    exact verdictCalls_cases _ _ _ _

/-- `IsIpInList` is the disjunction of `Contains` over the list. -/
theorem IsIpInList_eq_any (ip : IP) (list : List IPNet) :
    IsIpInList ip list = list.any (fun block => Contains block ip) := by
  induction list with
  | nil => rfl
  | cons block rest ih =>
    by_cases hb : Contains block ip = true
    · simp [IsIpInList, hb]
    · simp only [Bool.not_eq_true] at hb
      simp [IsIpInList, hb, ih]

/-- The calls of `ServeHTTP` on a candidate list are those of the reference verdict. -/
theorem verdictCalls_eq_reference (allowLocal : Bool) (privateIPBlocks : List IPNet)
    (ranges : List IpRangesTimestamp) (ips : List IP) :
    verdictCalls allowLocal privateIPBlocks ranges ips =
      if referenceAllowed allowLocal privateIPBlocks ranges ips then [Call.next]
      else [Call.writeHeader StatusForbidden] := by
  induction ips with
  | nil => simp [verdictCalls, referenceAllowed]
  | cons ip rest ih =>
    have hin : ranges.any (inCountry ip) = ranges.any (fun entry =>
        entry.Country != PrivateIpAddressesTag &&
          entry.IpRanges.any (fun block => Contains block ip)) := by
      congr 1
      funext entry
      simp only [inCountry, IsIpInList_eq_any]
    by_cases hp : IsPrivateIP ip privateIPBlocks = true
    · cases allowLocal <;> simp [verdictCalls, referenceAllowed, hp]
    · simp only [Bool.not_eq_true] at hp
      by_cases hany : ranges.any (inCountry ip) = true
      · have hany2 := hany
        rw [hin] at hany2
        have href : referenceAllowed allowLocal privateIPBlocks ranges (ip :: rest)
            = referenceAllowed allowLocal privateIPBlocks ranges rest := by
          simp [referenceAllowed, List.takeWhile_cons, hp, hany2]
        simp only [verdictCalls, hp, hany, ih, href, Bool.false_eq_true, if_false, if_true]
      · simp only [Bool.not_eq_true] at hany
        have hany2 := hany
        rw [hin] at hany2
        simp [verdictCalls, referenceAllowed, hp, hany, hany2]

/-- The candidates behind a private candidate do not enter the calls. -/
theorem verdictCalls_after_private (allowLocal : Bool) (privateIPBlocks : List IPNet)
    (ranges : List IpRangesTimestamp) (x : IP) (post1 post2 : List IP)
    (hx : IsPrivateIP x privateIPBlocks = true) :
    ∀ pre : List IP,
      verdictCalls allowLocal privateIPBlocks ranges (pre ++ x :: post1)
        = verdictCalls allowLocal privateIPBlocks ranges (pre ++ x :: post2) := by
  intro pre
  induction pre with
  | nil => simp [verdictCalls, hx]
  | cons y pre ih =>
    simp only [List.cons_append, verdictCalls]
    split_ifs
    · rfl
    · rfl
    · exact ih
    · rfl

/-! ## Lemmas: the order of the country entries -/

/-- Registries that hold an address in the same cases give the same calls. -/
theorem verdictCalls_congr (allowLocal : Bool) (privateIPBlocks : List IPNet)
    (ranges1 ranges2 : List IpRangesTimestamp)
    (h : ∀ ip, ranges1.any (inCountry ip) = ranges2.any (inCountry ip)) (ips : List IP) :
    verdictCalls allowLocal privateIPBlocks ranges1 ips
      = verdictCalls allowLocal privateIPBlocks ranges2 ips := by
  induction ips with
  | nil => rfl
  | cons ip rest ih => simp only [verdictCalls, h ip, ih]

/-- Whether some entry of a registry satisfies a test does not depend on the
order of the entries. -/
theorem any_perm {α : Type} (f : α → Bool) (l1 l2 : List α) (h : l1.Perm l2) :
    l1.any f = l2.any f := by
  rw [Bool.eq_iff_iff]
  simp only [List.any_eq_true]
  exact ⟨fun ⟨x, hx, hf⟩ => ⟨x, h.mem_iff.1 hx, hf⟩, fun ⟨x, hx, hf⟩ => ⟨x, h.mem_iff.2 hx, hf⟩⟩

/-! ## The claims -/

/-- C1, refuted as stated: the request with `X-Forwarded-For: 192.168.1.1,2.56.8.0`
reaches a handler that allows local requests.  Its second candidate, 2.56.8.0,
fails its check (not private, in no country block), yet `ServeHTTP` calls the
next handler and writes no 403: the loop returns at the private first
candidate. -/
theorem C1_counterexample_private_candidate_ends_loop :
    CollectRemoteIP (exRequest "192.168.1.1,2.56.8.0") = ([ipLocal, ipUS], none) ∧
    failsCheck (exPlugin true) ipUS ∧
    (ServeHTTP (exPlugin true) exWorld (exRequest "192.168.1.1,2.56.8.0")).calls
      = [Call.next] := by
  decide

/-- C1, amended, for a request whose candidate list is extracted and any
candidate of the list.  If the candidate fails its check (private while
`allowLocalRequests` is false, or not private and in no block of a country
entry) and either `allowLocalRequests` is false or no candidate before it is
private, then `ServeHTTP` writes 403, never calls the next handler and does
not panic, whatever the candidates around it, the registry and the world.
If `allowLocalRequests` is true, the candidate is private and no candidate
before it fails its check, then `ServeHTTP` calls the next handler, writes no
status and does not panic, whatever the candidates behind it, failing ones
included. -/
theorem C1_failing_candidate_denies (p : traefik_allow_countries) (w : World)
    (request : Request) (pre post : List IP) (ip : IP)
    (hc : CollectRemoteIP request = (pre ++ ip :: post, none)) :
    (failsCheck p ip →
      (p.allowLocalRequests = false ∨
        ∀ x ∈ pre, IsPrivateIP x (findPrivateIPBlocks p.allowedIPRanges) = false) →
      (ServeHTTP p w request).calls = [Call.writeHeader StatusForbidden] ∧
      Call.next ∉ (ServeHTTP p w request).calls ∧
      (ServeHTTP p w request).panicked = none) ∧
    (p.allowLocalRequests = true →
      IsPrivateIP ip (findPrivateIPBlocks p.allowedIPRanges) = true →
      (∀ x ∈ pre, ¬ failsCheck p x) →
      (ServeHTTP p w request).calls = [Call.next] ∧
      (∀ status, Call.writeHeader status ∉ (ServeHTTP p w request).calls) ∧
      (ServeHTTP p w request).panicked = none) := by
  have hpanic : (ServeHTTP p w request).panicked = none := by
    simp only [ServeHTTP, hc]
    exact (serveLoop_spec p request.URL _ _ p.allowedIPRanges w []).2.2
  constructor
  · intro hfail hearly
    have hcalls : (ServeHTTP p w request).calls = [Call.writeHeader StatusForbidden] := by
      rw [ServeHTTP_calls_of_collected p w request _ hc]
      exact verdictCalls_deny p ip post hfail pre hearly
    exact ⟨hcalls, by rw [hcalls]; decide, hpanic⟩
  · intro hallow hpriv hpass
    have hcalls : (ServeHTTP p w request).calls = [Call.next] := by
      rw [ServeHTTP_calls_of_collected p w request _ hc]
      exact verdictCalls_allow_at_private p ip post hallow hpriv pre hpass
    exact ⟨hcalls, by rw [hcalls]; simp, hpanic⟩

/-- C1, amended, with local requests allowed: at
`X-Forwarded-For: 2.56.20.0,2.56.8.0,192.168.1.1` the second candidate fails
after the first passed, and the request is refused; at
`X-Forwarded-For: 2.56.20.0,192.168.1.1,2.56.8.0` the private second candidate
ends the request with the call of the next handler, although the third
candidate fails its check. -/
theorem C1_failing_candidate_denies_witness :
    (CollectRemoteIP (exRequest "2.56.20.0,2.56.8.0,192.168.1.1")
        = ([ipDE] ++ ipUS :: [ipLocal], none) ∧
      failsCheck (exPlugin true) ipUS ∧
      (ServeHTTP (exPlugin true) exWorld
          (exRequest "2.56.20.0,2.56.8.0,192.168.1.1")).calls
        = [Call.writeHeader StatusForbidden]) ∧
    (CollectRemoteIP (exRequest "2.56.20.0,192.168.1.1,2.56.8.0")
        = ([ipDE] ++ ipLocal :: [ipUS], none) ∧
      IsPrivateIP ipLocal (findPrivateIPBlocks (exPlugin true).allowedIPRanges) = true ∧
      (∀ x ∈ [ipDE], ¬ failsCheck (exPlugin true) x) ∧
      (ServeHTTP (exPlugin true) exWorld
          (exRequest "2.56.20.0,192.168.1.1,2.56.8.0")).calls = [Call.next]) :=
  ⟨⟨by decide, by decide,
     ((C1_failing_candidate_denies (exPlugin true) exWorld
       (exRequest "2.56.20.0,2.56.8.0,192.168.1.1") [ipDE] [ipLocal] ipUS
       (by decide)).1 (by decide) (Or.inr (by decide))).1⟩,
   ⟨by decide, by decide, by decide,
     ((C1_failing_candidate_denies (exPlugin true) exWorld
       (exRequest "2.56.20.0,192.168.1.1,2.56.8.0") [ipDE] [ipUS] ipLocal
       (by decide)).2 rfl (by decide) (by decide)).1⟩⟩

/-- C2: when the only candidate address of a request is not private,
`ServeHTTP` calls the next handler if and only if some block of some country
entry (an entry not tagged `private`) of the registry contains the address;
otherwise it writes 403 and does not call the next handler. -/
theorem C2_single_public_candidate (p : traefik_allow_countries) (w : World)
    (request : Request) (ip : IP)
    (hc : CollectRemoteIP request = ([ip], none))
    (hpub : IsPrivateIP ip (findPrivateIPBlocks p.allowedIPRanges) = false) :
    ((ServeHTTP p w request).calls = [Call.next] ↔
      ∃ entry ∈ p.allowedIPRanges, entry.Country ≠ PrivateIpAddressesTag ∧
        ∃ block ∈ entry.IpRanges, Contains block ip = true) ∧
    ((¬ ∃ entry ∈ p.allowedIPRanges, entry.Country ≠ PrivateIpAddressesTag ∧
        ∃ block ∈ entry.IpRanges, Contains block ip = true) →
      (ServeHTTP p w request).calls = [Call.writeHeader StatusForbidden]) := by
  rw [ServeHTTP_calls_of_collected p w request _ hc, ← any_inCountry_iff]
  by_cases hany : p.allowedIPRanges.any (inCountry ip) = true
  · simp [verdictCalls, hpub, hany]
  · simp only [Bool.not_eq_true] at hany
    simp [verdictCalls, hpub, hany, StatusForbidden]

/-- C2 at the requests of `TestAllowedCountry` and `TestBlockedCountry`:
2.56.20.0 is forwarded, 2.56.8.0 is refused. -/
theorem C2_single_public_candidate_witness :
    (CollectRemoteIP (exRequest "2.56.20.0") = ([ipDE], none) ∧
      (ServeHTTP (exPlugin false) exWorld (exRequest "2.56.20.0")).calls = [Call.next]) ∧
    (CollectRemoteIP (exRequest "2.56.8.0") = ([ipUS], none) ∧
      (ServeHTTP (exPlugin false) exWorld (exRequest "2.56.8.0")).calls
        = [Call.writeHeader StatusForbidden]) :=
  ⟨⟨by decide,
     (C2_single_public_candidate (exPlugin false) exWorld (exRequest "2.56.20.0") ipDE
       (by decide) (by decide)).1.2 (by decide)⟩,
   ⟨by decide,
     (C2_single_public_candidate (exPlugin false) exWorld (exRequest "2.56.8.0") ipUS
       (by decide) (by decide)).2 (by decide)⟩⟩

/-- C3: when the only candidate address of a request is private, `ServeHTTP`
calls the next handler if and only if `allowLocalRequests` is true and
otherwise writes 403; any other handler with the same `allowLocalRequests`
for which the address is private, whatever its countries and their blocks,
makes the same calls. -/
theorem C3_single_private_candidate (p : traefik_allow_countries) (w : World)
    (request : Request) (ip : IP)
    (hc : CollectRemoteIP request = ([ip], none))
    (hpriv : IsPrivateIP ip (findPrivateIPBlocks p.allowedIPRanges) = true) :
    ((ServeHTTP p w request).calls = [Call.next] ↔ p.allowLocalRequests = true) ∧
    (p.allowLocalRequests = false →
      (ServeHTTP p w request).calls = [Call.writeHeader StatusForbidden]) ∧
    (∀ (q : traefik_allow_countries) (w1 : World),
      q.allowLocalRequests = p.allowLocalRequests →
      IsPrivateIP ip (findPrivateIPBlocks q.allowedIPRanges) = true →
      (ServeHTTP q w1 request).calls = (ServeHTTP p w request).calls) := by
  refine ⟨?_, ?_, ?_⟩
  · rw [ServeHTTP_calls_of_collected p w request _ hc]
    by_cases ha : p.allowLocalRequests = true
    · simp [verdictCalls, hpriv, ha]
    · simp only [Bool.not_eq_true] at ha
      simp [verdictCalls, hpriv, ha]
  · intro ha
    rw [ServeHTTP_calls_of_collected p w request _ hc]
    simp [verdictCalls, hpriv, ha]
  · intro q w1 hq hqpriv
    rw [ServeHTTP_calls_of_collected p w request _ hc,
      ServeHTTP_calls_of_collected q w1 request _ hc]
    simp [verdictCalls, hpriv, hqpriv, hq]

/-- C3 at the request of `TestAllowLocalIP`, `X-Forwarded-For: 192.168.1.1`:
forwarded when local requests are allowed, refused when they are not. -/
theorem C3_single_private_candidate_witness :
    CollectRemoteIP (exRequest "192.168.1.1") = ([ipLocal], none) ∧
    IsPrivateIP ipLocal (findPrivateIPBlocks (exPlugin true).allowedIPRanges) = true ∧
    (ServeHTTP (exPlugin true) exWorld (exRequest "192.168.1.1")).calls = [Call.next] ∧
    (ServeHTTP (exPlugin false) exWorld (exRequest "192.168.1.1")).calls
      = [Call.writeHeader StatusForbidden] :=
  ⟨by decide, by decide,
   (C3_single_private_candidate (exPlugin true) exWorld (exRequest "192.168.1.1") ipLocal
     (by decide) (by decide)).1.2 rfl,
   (C3_single_private_candidate (exPlugin false) exWorld (exRequest "192.168.1.1") ipLocal
     (by decide) (by decide)).2.1 rfl⟩

/-- C4: `New` returns an error (and with it no handler) whenever
`CidrFileFolder` is the empty string or `Countries` is empty, whatever the
other fields, and leaves the world as it found it, so no file was opened; and
provided the files of every configured country load, `New` returns an error
if and only if one of the two holds, and a handler otherwise. -/
theorem C4_New_error_iff (w : World) (config : Config) (name : String) :
    ((config.CidrFileFolder = "" ∨ config.Countries = []) →
      (∃ err, (New w config name).1 = NewResult.error err) ∧ (New w config name).2 = w) ∧
    ((∀ c ∈ config.Countries, countryLoads w config.CidrFileFolder c = true) →
      ((∃ err, (New w config name).1 = NewResult.error err) ↔
        (config.CidrFileFolder = "" ∨ config.Countries = [])) ∧
      (¬ (config.CidrFileFolder = "" ∨ config.Countries = []) →
        ∃ h, (New w config name).1 = NewResult.handler h)) := by
  have herr : (config.CidrFileFolder = "" ∨ config.Countries = []) →
      (∃ err, (New w config name).1 = NewResult.error err) ∧ (New w config name).2 = w := by
    intro h
    by_cases hf : config.CidrFileFolder = ""
    · simp [New, hf]
    · have hc : config.Countries = [] := h.resolve_left hf
      have h1 : (config.CidrFileFolder.length == 0) = false := by
        rw [Bool.eq_false_iff]; intro h0; exact hf ((length_beq_zero_iff _).1 h0)
      simp [New, h1, hc]
  have hok : (∀ c ∈ config.Countries, countryLoads w config.CidrFileFolder c = true) →
      ¬ (config.CidrFileFolder = "" ∨ config.Countries = []) →
      ∃ h, (New w config name).1 = NewResult.handler h := by
    intro hload hne
    rw [not_or] at hne
    obtain ⟨ranges, w1, hr⟩ := appendCountries_loads config.CidrFileFolder config.Countries
      { w with tick := w.tick + 1 }
      [{ Country := PrivateIpAddressesTag, IpRanges := privateBlocks,
         Timestamp := w.clock w.tick }] hload
    have hinit : InitializeAllowedIPRanges w config.Countries config.CidrFileFolder
        = (Run.ok ranges, w1) := by
      simp only [InitializeAllowedIPRanges, InitializePrivateIPBlocks_eq, timeNow]
      exact hr
    rw [New_of_configured w config name hne.1 hne.2, hinit]
    exact ⟨_, rfl⟩
  refine ⟨herr, fun hload => ⟨⟨?_, fun h => (herr h).1⟩, hok hload⟩⟩
  rintro ⟨err, he⟩
  by_contra hne
  obtain ⟨h, hh⟩ := hok hload hne
  rw [he] at hh
  exact NewResult.noConfusion hh

/-- C4 at the configurations of `TestEmptyCidrFileFolder`,
`TestEmptyAllowedCountryList` and `TestAllowedCountry`. -/
theorem C4_New_error_iff_witness :
    (∃ err, (New exWorld { exConfig false with CidrFileFolder := "" } "AllowCountries").1
      = NewResult.error err) ∧
    (∃ err, (New exWorld { exConfig false with Countries := [] } "AllowCountries").1
      = NewResult.error err) ∧
    (∀ c ∈ (exConfig false).Countries,
      countryLoads exWorld (exConfig false).CidrFileFolder c = true) ∧
    (∃ h, (New exWorld (exConfig false) "AllowCountries").1 = NewResult.handler h) :=
  ⟨((C4_New_error_iff exWorld { exConfig false with CidrFileFolder := "" }
      "AllowCountries").1 (Or.inl rfl)).1,
   ((C4_New_error_iff exWorld { exConfig false with Countries := [] }
      "AllowCountries").1 (Or.inr rfl)).1,
   by decide,
   ((C4_New_error_iff exWorld (exConfig false) "AllowCountries").2 (by decide)).2
     (by decide)⟩

/-- C5: when some comma-separated token of the `X-Forwarded-For` or
`X-Real-IP` value is not an address for `net.ParseIP`, `CollectRemoteIP`
returns an error and `ServeHTTP` writes 403 without calling the next handler,
whatever the other tokens, the handler and the world; the registry is left
as it was. -/
theorem C5_unparseable_token_denied (p : traefik_allow_countries) (w : World)
    (request : Request)
    (hbad : ∃ v ∈ headerTokens request, netParseIP v = none) :
    (∃ err, (CollectRemoteIP request).2 = some err) ∧
    (ServeHTTP p w request).calls = [Call.writeHeader StatusForbidden] ∧
    Call.next ∉ (ServeHTTP p w request).calls ∧
    (ServeHTTP p w request).allowedIPRanges = p.allowedIPRanges := by
  have hall : (headerTokens request).all (fun v => (netParseIP v).isSome) = false := by
    rw [List.all_eq_false]
    obtain ⟨v, hv, hnone⟩ := hbad
    exact ⟨v, hv, by simp [hnone]⟩
  obtain ⟨l, err, hc⟩ := CollectRemoteIP_err request hall
  have hcalls := ServeHTTP_calls_of_error p w request l err hc
  refine ⟨⟨err, by rw [hc]⟩, hcalls, ?_, ?_⟩
  · rw [hcalls]; decide
  · simp only [ServeHTTP, hc]

/-- C5 at `X-Forwarded-For: 2.56.20.0,192.168.1.X`: the first token is an
allowed address, the second is not an address. -/
theorem C5_unparseable_token_denied_witness :
    (∃ v ∈ headerTokens (exRequest "2.56.20.0,192.168.1.X"), netParseIP v = none) ∧
    (ServeHTTP (exPlugin true) exWorld (exRequest "2.56.20.0,192.168.1.X")).calls
      = [Call.writeHeader StatusForbidden] :=
  ⟨⟨"192.168.1.X", by decide, by decide⟩,
   (C5_unparseable_token_denied (exPlugin true) exWorld (exRequest "2.56.20.0,192.168.1.X")
     ⟨"192.168.1.X", by decide, by decide⟩).2.1⟩

/-- C6, refuted as stated: for `X-Forwarded-For: 2.56.20.0, 2.56.20.1` (a
comma followed by a space) the second token is ` 2.56.20.1` with its space,
`CollectRemoteIP` returns the parse error and the one address read before it,
and `ServeHTTP` writes 403 for a handler that allows both addresses. -/
theorem C6_counterexample_space_after_comma :
    headerTokens (exRequest "2.56.20.0, 2.56.20.1") = ["2.56.20.0", " 2.56.20.1"] ∧
    CollectRemoteIP (exRequest "2.56.20.0, 2.56.20.1")
      = ([ipDE], some (GoError.errorf
          "parsing failed: unable to parse IP from address [ 2.56.20.1]")) ∧
    (ServeHTTP (exPlugin true) exWorld (exRequest "2.56.20.0, 2.56.20.1")).calls
      = [Call.writeHeader StatusForbidden] := by
  decide

/-- C6, amended: every comma-separated token of the two header values is
handed to `net.ParseIP` as it stands, without trimming.  `CollectRemoteIP`
succeeds exactly when every raw token is an address, and then returns their
addresses in order; a token that starts with a space is never accepted, so a
header with such a token gives an error; the value `2.56.20.0,2.56.20.1`
(no space) gives the two candidates 2.56.20.0 and 2.56.20.1. -/
theorem C6_tokens_parsed_untrimmed (request : Request) :
    ((CollectRemoteIP request).2 = none ↔
      ∀ v ∈ headerTokens request, (netParseIP v).isSome = true) ∧
    ((∀ v ∈ headerTokens request, (netParseIP v).isSome = true) →
      (CollectRemoteIP request).1 = (headerTokens request).filterMap netParseIP) ∧
    ((∃ v ∈ headerTokens request, v.data.head? = some ' ') →
      ∃ err, (CollectRemoteIP request).2 = some err) ∧
    CollectRemoteIP (exRequest "2.56.20.0,2.56.20.1") = ([ipDE, ipDE1], none) := by
  have hok : (∀ v ∈ headerTokens request, (netParseIP v).isSome = true) →
      CollectRemoteIP request = ((headerTokens request).filterMap netParseIP, none) := by
    intro h
    exact CollectRemoteIP_ok request (List.all_eq_true.2 h)
  have hbad : (¬ ∀ v ∈ headerTokens request, (netParseIP v).isSome = true) →
      ∃ err, (CollectRemoteIP request).2 = some err := by
    intro h
    have hall : (headerTokens request).all (fun v => (netParseIP v).isSome) = false := by
      rw [Bool.eq_false_iff]
      intro ht
      exact h (List.all_eq_true.1 ht)
    obtain ⟨l, err, hc⟩ := CollectRemoteIP_err request hall
    exact ⟨err, by rw [hc]⟩
  refine ⟨⟨?_, fun h => by rw [hok h]⟩, fun h => by rw [hok h], ?_, by decide⟩
  · intro hnone
    by_contra hne
    obtain ⟨err, he⟩ := hbad hne
    rw [hnone] at he
    exact Option.noConfusion he
  · rintro ⟨v, hv, hsp⟩
    apply hbad
    intro hall
    have hsome := hall v hv
    rcases v with ⟨d⟩
    cases d with
    | nil => simp at hsp
    | cons c cs =>
      simp only [List.head?_cons, Option.some.injEq] at hsp
      subst hsp
      rw [netParseIP_leading_space] at hsome
      exact Bool.noConfusion hsome

/-- C6, amended, at `X-Forwarded-For: 2.56.20.0, 2.56.20.1`: the token after
the comma starts with a space, and the extraction fails. -/
theorem C6_tokens_parsed_untrimmed_witness :
    (∃ v ∈ headerTokens (exRequest "2.56.20.0, 2.56.20.1"), v.data.head? = some ' ') ∧
    (∃ err, (CollectRemoteIP (exRequest "2.56.20.0, 2.56.20.1")).2 = some err) :=
  ⟨⟨" 2.56.20.1", by decide, by decide⟩,
   (C6_tokens_parsed_untrimmed (exRequest "2.56.20.0, 2.56.20.1")).2.2.1
     ⟨" 2.56.20.1", by decide, by decide⟩⟩

/-- C7: a request without `X-Forwarded-For` and `X-Real-IP` values (absent or
empty) yields the empty candidate list, and every request that yields the
empty candidate list is allowed: `ServeHTTP` calls the next handler, writes
no 403, does not panic and leaves the registry as it was. -/
theorem C7_empty_candidate_list_allowed (p : traefik_allow_countries) (w : World)
    (request : Request) :
    (HeaderGet request.Header "X-Forwarded-For" = "" →
      HeaderGet request.Header "X-Real-IP" = "" → CollectRemoteIP request = ([], none)) ∧
    (CollectRemoteIP request = ([], none) →
      (ServeHTTP p w request).calls = [Call.next] ∧
      Call.writeHeader StatusForbidden ∉ (ServeHTTP p w request).calls ∧
      (ServeHTTP p w request).panicked = none ∧
      (ServeHTTP p w request).allowedIPRanges = p.allowedIPRanges) := by
  constructor
  · intro hx hr
    simp [CollectRemoteIP, hx, hr, FieldsFunc, FieldsFuncLoop, parseValues]
  · intro hc
    have hcalls : (ServeHTTP p w request).calls = [Call.next] := by
      rw [ServeHTTP_calls_of_collected p w request _ hc]; rfl
    refine ⟨hcalls, ?_, ?_, ?_⟩
    · rw [hcalls]; decide
    · simp only [ServeHTTP, hc, serveLoop]
    · simp only [ServeHTTP, hc, serveLoop]

/-- C7 at the request without headers, for a handler that refuses local requests. -/
theorem C7_empty_candidate_list_allowed_witness :
    HeaderGet bareRequest.Header "X-Forwarded-For" = "" ∧
    HeaderGet bareRequest.Header "X-Real-IP" = "" ∧
    CollectRemoteIP bareRequest = ([], none) ∧
    (ServeHTTP (exPlugin false) exWorld bareRequest).calls = [Call.next] :=
  ⟨by decide, by decide,
   (C7_empty_candidate_list_allowed (exPlugin false) exWorld bareRequest).1
     (by decide) (by decide),
   ((C7_empty_candidate_list_allowed (exPlugin false) exWorld bareRequest).2
     (by decide)).1⟩

/-- C8: `IsPrivateIP ip privateIPBlocks` is true if and only if `ip` is a
loopback address, a link-local unicast address, a link-local multicast
address, or some block of `privateIPBlocks` contains it.  The blocks
`ServeHTTP` passes are those of the first entry tagged `private`: with such an
entry in front, the result is the same whatever country entries follow. -/
theorem C8_IsPrivateIP_iff (ip : IP) (privateIPBlocks : List IPNet) :
    (IsPrivateIP ip privateIPBlocks = true ↔
      (IsLoopback ip = true ∨ IsLinkLocalUnicast ip = true ∨ IsLinkLocalMulticast ip = true ∨
        ∃ block ∈ privateIPBlocks, Contains block ip = true)) ∧
    (∀ (ts : Int) (countries1 countries2 : List IpRangesTimestamp),
      IsPrivateIP ip (findPrivateIPBlocks
          ({ Country := PrivateIpAddressesTag, IpRanges := privateIPBlocks, Timestamp := ts }
            :: countries1))
        = IsPrivateIP ip (findPrivateIPBlocks
          ({ Country := PrivateIpAddressesTag, IpRanges := privateIPBlocks, Timestamp := ts }
            :: countries2))) := by
  constructor
  · rw [← IsIpInList_iff]
    unfold IsPrivateIP
    by_cases h : (IsLoopback ip || IsLinkLocalUnicast ip || IsLinkLocalMulticast ip) = true
    · have h1 := h
      simp only [Bool.or_eq_true] at h1
      simp only [h, if_true, true_iff]
      tauto
    · have h1 := h
      simp only [Bool.or_eq_true, not_or] at h1
      simp only [h, if_false]
      tauto
  · intro ts countries1 countries2
    simp [findPrivateIPBlocks]

/-- C9, the code at the input of `TestAllowedCountry_WithCustomFileExtension`
(country `AT`, folder `.test-data`, files with the extension `netset`):
`CreateCountryIPBlocks` opens `.test-data/ipv4/at.cidr`, the extension being
fixed in the code, does not find it, and panics; neither `at.netset` file is
opened. -/
theorem C9_extension_is_fixed_to_cidr :
    (CreateCountryIPBlocks netsetWorld "AT" ".test-data").2.opened
      = [".test-data/ipv4/at.cidr"] ∧
    (CreateCountryIPBlocks netsetWorld "AT" ".test-data").1
      = Run.panic (PanicValue.readFailed "ipv4" "AT" (GoError.os ".test-data/ipv4/at.cidr")) ∧
    (netsetWorld.files ".test-data/ipv4/at.netset").isSome = true ∧
    (netsetWorld.files ".test-data/ipv6/at.netset").isSome = true := by
  decide

/-- C10, refuted as stated: with the countries `DE` and `GB` configured and
no file for `GB`, `New` panics and returns no error; and with a blank line at
the end of the IPv4 file of `DE`, every other line being a valid block, `New`
panics on the blank line. -/
theorem C10_counterexample_New_panics :
    (New exWorld exConfigTwo "AllowCountries").1
      = NewResult.panic
          (PanicValue.readFailed "ipv4" "GB" (GoError.os ".test-data/ipv4/gb.cidr")) ∧
    ScanLines "2.56.20.0/22\n\n" = ["2.56.20.0/22", ""] ∧
    (New blankWorld (exConfig false) "AllowCountries").1
      = NewResult.panic (PanicValue.parseError "") := by
  decide

/-- C10, amended: for every configuration with a non-empty `CidrFileFolder`
and non-empty `Countries` in which a file of some configured country cannot
be read or has a line that is not valid CIDR notation, `New` panics: it
produces no handler and returns no error.  A blank line is such a line: a
file with a blank line does not load. -/
theorem C10_New_panics_on_bad_file (w : World) (config : Config) (name : String)
    (hf : config.CidrFileFolder ≠ "") (hc : config.Countries ≠ [])
    (hbad : ∃ c ∈ config.Countries, countryLoads w config.CidrFileFolder c = false) :
    (∃ pv, (New w config name).1 = NewResult.panic pv) ∧
    (∀ h, (New w config name).1 ≠ NewResult.handler h) ∧
    (∀ err, (New w config name).1 ≠ NewResult.error err) ∧
    (∀ path fd, w.files path = some fd → "" ∈ ScanLines fd.content →
      fileLoads w path = false) := by
  obtain ⟨pv, w1, hp⟩ := appendCountries_fails config.CidrFileFolder config.Countries
    { w with tick := w.tick + 1 }
    [{ Country := PrivateIpAddressesTag, IpRanges := privateBlocks,
       Timestamp := w.clock w.tick }] hbad
  have hinit : InitializeAllowedIPRanges w config.Countries config.CidrFileFolder
      = (Run.panic pv, w1) := by
    simp only [InitializeAllowedIPRanges, InitializePrivateIPBlocks_eq, timeNow]
    exact hp
  have hnew : (New w config name).1 = NewResult.panic pv := by
    rw [New_of_configured w config name hf hc, hinit]
  refine ⟨⟨pv, hnew⟩, ?_, ?_, ?_⟩
  · intro h hh; rw [hnew] at hh; exact NewResult.noConfusion hh
  · intro err he; rw [hnew] at he; exact NewResult.noConfusion he
  · intro path fd hfd hblank
    have hcidr : ParseCIDR "" = none := by decide
    simp only [fileLoads, hfd, Bool.and_eq_false_iff, Bool.not_eq_false', List.all_eq_false]
    exact Or.inr ⟨"", hblank, by simp [hcidr]⟩

/-- C10, amended, at the example world with `GB` configured and no file for it. -/
theorem C10_New_panics_on_bad_file_witness :
    exConfigTwo.CidrFileFolder ≠ "" ∧ exConfigTwo.Countries ≠ [] ∧
    (∃ c ∈ exConfigTwo.Countries, countryLoads exWorld exConfigTwo.CidrFileFolder c = false) ∧
    (∃ pv, (New exWorld exConfigTwo "AllowCountries").1 = NewResult.panic pv) :=
  ⟨by decide, by decide, ⟨"GB", by decide, by decide⟩,
   (C10_New_panics_on_bad_file exWorld exConfigTwo "AllowCountries" (by decide) (by decide)
     ⟨"GB", by decide, by decide⟩).1⟩

/-- C11: two handlers that differ only in `logAllowedRequests`, `logDetails`
and `logLocalRequests` make the same calls on every request in every world
(the next handler or 403), leave the registry in the same state, panic
alike and leave the same world. -/
theorem C11_log_flags_do_not_alter_verdict (p q : traefik_allow_countries) (w : World)
    (request : Request)
    (hname : q.name = p.name)
    (hranges : q.allowedIPRanges = p.allowedIPRanges)
    (hlocal : q.allowLocalRequests = p.allowLocalRequests)
    (hfolder : q.cidrFileFolder = p.cidrFileFolder)
    (hupdate : q.cidrFileUpdate = p.cidrFileUpdate)
    (hcountries : q.countries = p.countries) :
    (ServeHTTP q w request).calls = (ServeHTTP p w request).calls ∧
    (ServeHTTP q w request).allowedIPRanges = (ServeHTTP p w request).allowedIPRanges ∧
    (ServeHTTP q w request).panicked = (ServeHTTP p w request).panicked ∧
    (ServeHTTP q w request).world = (ServeHTTP p w request).world := by
  have hq : q = withLogFlags p q.logAllowedRequests q.logDetails q.logLocalRequests := by
    cases p
    cases q
    simp only [withLogFlags] at *
    simp [hname, hranges, hlocal, hfolder, hupdate, hcountries]
  rw [hq]
  exact ServeHTTP_withLogFlags p _ _ _ w request

/-- C11 at the request `X-Forwarded-For: 2.56.20.0,2.56.8.0`: the example
handler (logging local requests only) and the handler with the three switches
flipped both write 403. -/
theorem C11_log_flags_do_not_alter_verdict_witness :
    (ServeHTTP (withLogFlags (exPlugin true) true false false) exWorld
        (exRequest "2.56.20.0,2.56.8.0")).calls
      = (ServeHTTP (exPlugin true) exWorld (exRequest "2.56.20.0,2.56.8.0")).calls ∧
    (ServeHTTP (exPlugin true) exWorld (exRequest "2.56.20.0,2.56.8.0")).calls
      = [Call.writeHeader StatusForbidden] ∧
    (ServeHTTP (withLogFlags (exPlugin true) true false false) exWorld
        (exRequest "2.56.20.0,2.56.8.0")).logs
      ≠ (ServeHTTP (exPlugin true) exWorld (exRequest "2.56.20.0,2.56.8.0")).logs :=
  ⟨(C11_log_flags_do_not_alter_verdict (exPlugin true)
      (withLogFlags (exPlugin true) true false false) exWorld
      (exRequest "2.56.20.0,2.56.8.0") rfl rfl rfl rfl rfl rfl).1,
   by decide, by decide⟩

/-- C12: when every token of the two headers parses, `CollectRemoteIP` returns
the addresses of the `X-Forwarded-For` tokens in header order followed by the
addresses of the `X-Real-IP` tokens in header order, and no error. -/
theorem C12_CollectRemoteIP_concatenates (request : Request) (forwarded real : List IP)
    (hf : (FieldsFunc (HeaderGet request.Header "X-Forwarded-For") splitFn).map netParseIP
      = forwarded.map some)
    (hr : (FieldsFunc (HeaderGet request.Header "X-Real-IP") splitFn).map netParseIP
      = real.map some) :
    CollectRemoteIP request = (forwarded ++ real, none) := by
  obtain ⟨hf1, hf2⟩ := filterMap_of_map_some netParseIP _ forwarded hf
  obtain ⟨hr1, hr2⟩ := filterMap_of_map_some netParseIP _ real hr
  have hall : (headerTokens request).all (fun v => (netParseIP v).isSome) = true := by
    simp only [headerTokens, List.all_append, hf2, hr2, Bool.and_self]
  rw [CollectRemoteIP_ok request hall]
  simp only [headerTokens, List.filterMap_append, hf1, hr1]

/-- C12 at `X-Forwarded-For: 2.56.8.0,2.56.20.0` and `X-Real-IP: 192.168.1.1,2.56.20.1`. -/
theorem C12_CollectRemoteIP_concatenates_witness :
    (FieldsFunc (HeaderGet (exRequestBoth "2.56.8.0,2.56.20.0" "192.168.1.1,2.56.20.1").Header
        "X-Forwarded-For") splitFn).map netParseIP = [ipUS, ipDE].map some ∧
    (FieldsFunc (HeaderGet (exRequestBoth "2.56.8.0,2.56.20.0" "192.168.1.1,2.56.20.1").Header
        "X-Real-IP") splitFn).map netParseIP = [ipLocal, ipDE1].map some ∧
    CollectRemoteIP (exRequestBoth "2.56.8.0,2.56.20.0" "192.168.1.1,2.56.20.1")
      = ([ipUS, ipDE] ++ [ipLocal, ipDE1], none) :=
  ⟨by decide, by decide,
   C12_CollectRemoteIP_concatenates (exRequestBoth "2.56.8.0,2.56.20.0" "192.168.1.1,2.56.20.1")
     [ipUS, ipDE] [ipLocal, ipDE1] (by decide) (by decide)⟩

/-- C13: for every list of countries whose files all load,
`InitializeAllowedIPRanges` returns a registry with one entry more than there
are countries; its first entry is labelled `private`, holds the built-in
private blocks and carries the first clock reading; the entries after it are
labelled with the countries, in configuration order, and each holds the
blocks of its country's two files. -/
theorem C13_InitializeAllowedIPRanges_layout (w : World) (countries : List String)
    (folder : String) (hload : ∀ c ∈ countries, countryLoads w folder c = true) :
    ∃ tail w1,
      InitializeAllowedIPRanges w countries folder
        = (Run.ok ({ Country := PrivateIpAddressesTag, IpRanges := privateBlocks,
                     Timestamp := w.clock w.tick } :: tail), w1) ∧
      InitializePrivateIPBlocks = Run.ok privateBlocks ∧
      tail.length = countries.length ∧
      tail.map (fun e => e.Country) = countries ∧
      tail.map (fun e => e.IpRanges) = countries.map (countryBlocks w folder) := by
  obtain ⟨tail, w1, hr, hcs, hbs⟩ := appendCountries_loads_exact w folder countries
    { w with tick := w.tick + 1 }
    [{ Country := PrivateIpAddressesTag, IpRanges := privateBlocks,
       Timestamp := w.clock w.tick }] rfl rfl hload
  refine ⟨tail, w1, ?_, InitializePrivateIPBlocks_eq, ?_, hcs, hbs⟩
  · simp only [InitializeAllowedIPRanges, InitializePrivateIPBlocks_eq, timeNow]
    exact hr
  · have := congrArg List.length hcs
    simpa using this

/-- C13 at the example world with the country `DE`: the registry is the
private entry followed by the entry of `DE`. -/
theorem C13_InitializeAllowedIPRanges_layout_witness :
    (∀ c ∈ ["DE"], countryLoads exWorld ".test-data" c = true) ∧
    (∃ tail w1,
      InitializeAllowedIPRanges exWorld ["DE"] ".test-data"
        = (Run.ok ({ Country := PrivateIpAddressesTag, IpRanges := privateBlocks,
                     Timestamp := exWorld.clock exWorld.tick } :: tail), w1) ∧
      tail.map (fun e => e.Country) = ["DE"]) ∧
    (InitializeAllowedIPRanges exWorld ["DE"] ".test-data").1 = Run.ok exRanges :=
  ⟨by decide,
   (C13_InitializeAllowedIPRanges_layout exWorld ["DE"] ".test-data" (by decide)).imp
     (fun _ h => h.imp (fun _ h1 => ⟨h1.1, h1.2.2.2.1⟩)),
   by decide⟩

/-- C14, refuted as stated: the blocks `InitializePrivateIPBlocks` returns do
not include the link-local multicast block 224.0.0.0/24, and no block of
them contains the address 224.0.0.1. -/
theorem C14_counterexample_no_multicast_block :
    InitializePrivateIPBlocks = Run.ok privateBlocks ∧
    ParseCIDR "224.0.0.0/24" = some { IP := [224, 0, 0, 0], Mask := [255, 255, 255, 0] } ∧
    ({ IP := [224, 0, 0, 0], Mask := [255, 255, 255, 0] } : IPNet) ∉ privateBlocks ∧
    IsIpInList ipMulticast privateBlocks = false := by
  decide

/-- C14, amended: `InitializePrivateIPBlocks` always succeeds (each of its
eight CIDR literals parses) and returns, in this order, the blocks of
127.0.0.0/8, 10.0.0.0/8, 172.16.0.0/12, 192.168.0.0/16, 169.254.0.0/16,
::1/128, fe80::/10 and fc00::/7.  The addresses of 224.0.0.0/24 are private
for `IsPrivateIP` all the same, through `IsLinkLocalMulticast`, whatever the
blocks. -/
theorem C14_private_blocks :
    InitializePrivateIPBlocks = Run.ok privateBlocks ∧
    privateCIDRs = ["127.0.0.0/8", "10.0.0.0/8", "172.16.0.0/12", "192.168.0.0/16",
      "169.254.0.0/16", "::1/128", "fe80::/10", "fc00::/7"] ∧
    privateCIDRs.map ParseCIDR = privateBlocks.map some ∧
    privateBlocks.length = 8 ∧
    (∀ (d : Nat) (blocks : List IPNet),
      IsPrivateIP (v4InV6Lead ++ [224, 0, 0, d]) blocks = true) := by
  refine ⟨InitializePrivateIPBlocks_eq, rfl, by decide, rfl, ?_⟩
  intro d blocks
  have hm : IsLinkLocalMulticast (v4InV6Lead ++ [224, 0, 0, d]) = true := by
    simp [IsLinkLocalMulticast, To4, v4InV6Lead, IPv4len, IPv6len, isZeros]
  simp [IsPrivateIP, hm]

/-- C15: for every handler, request and world (whatever the files are at
request time: missing, unreadable or malformed), `ServeHTTP` does not panic.
The update check never reloads an entry, so no file is opened while a request
is handled and `CreateCountryIPBlocks` is not reached. -/
theorem C15_ServeHTTP_does_not_panic (p : traefik_allow_countries) (w : World)
    (request : Request) :
    (ServeHTTP p w request).panicked = none ∧
    (ServeHTTP p w request).world.opened = w.opened ∧
    (∀ entry : IpRangesTimestamp, (updateIfNeeded p w entry).1 = Run.ok entry) :=
  ⟨ServeHTTP_panicked p w request, ServeHTTP_opened p w request,
    fun entry => updateIfNeeded_fst p w entry⟩

/-- C16: `ServeHTTP` leaves the number of registry entries and the label at
each position as they were, and leaves every entry labelled `private` as it
was: same label, same blocks, same timestamp, at the same position. -/
theorem C16_ServeHTTP_frame (p : traefik_allow_countries) (w : World) (request : Request) :
    (ServeHTTP p w request).allowedIPRanges.length = p.allowedIPRanges.length ∧
    (ServeHTTP p w request).allowedIPRanges.map (fun e => e.Country)
      = p.allowedIPRanges.map (fun e => e.Country) ∧
    (∀ (i : Nat) (entry : IpRangesTimestamp),
      p.allowedIPRanges.get? i = some entry → entry.Country = PrivateIpAddressesTag →
      (ServeHTTP p w request).allowedIPRanges.get? i = some entry) := by
  rw [ServeHTTP_registry]
  exact ⟨rfl, rfl, fun _ _ h _ => h⟩

/-- C16 at the example handler and the request `X-Forwarded-For: 2.56.20.0`,
with the update switched on and a clock far ahead of the timestamps. -/
theorem C16_ServeHTTP_frame_witness :
    (exPlugin false).allowedIPRanges.get? 0 = some
      { Country := PrivateIpAddressesTag, IpRanges := privateBlocks, Timestamp := 0 } ∧
    (ServeHTTP (exPlugin false) { exWorld with clock := fun _ => 10 ^ 30 }
        (exRequest "2.56.20.0")).allowedIPRanges.get? 0 = some
      { Country := PrivateIpAddressesTag, IpRanges := privateBlocks, Timestamp := 0 } :=
  ⟨by decide,
   (C16_ServeHTTP_frame (exPlugin false) { exWorld with clock := fun _ => 10 ^ 30 }
     (exRequest "2.56.20.0")).2.2 0 _ (by decide) rfl⟩

/-- C17: when the IPv4 file of a country scans without error into the lines
`l4` and its IPv6 file into the lines `l6`, and the lines parse to the blocks
`b4` and `b6`, `CreateCountryIPBlocks` returns an entry labelled with the
country as given, whose blocks are `b4` followed by `b6`, as many as there
are lines in the two files, stamped with the clock reading made after the
files were read. -/
theorem C17_CreateCountryIPBlocks_concatenates (w : World) (country folder : String)
    (fd4 fd6 : FileData) (l4 l6 : List String) (b4 b6 : List IPNet)
    (h4 : w.files (cidrPath w folder "ipv4" country) = some fd4)
    (h6 : w.files (cidrPath w folder "ipv6" country) = some fd6)
    (he4 : fd4.scanErr = false) (he6 : fd6.scanErr = false)
    (hl4 : ScanLines fd4.content = l4) (hl6 : ScanLines fd6.content = l6)
    (hb4 : l4.map ParseCIDR = b4.map some) (hb6 : l6.map ParseCIDR = b6.map some) :
    (CreateCountryIPBlocks w country folder).1
      = Run.ok { Country := country, IpRanges := b4 ++ b6, Timestamp := w.clock w.tick } ∧
    (b4 ++ b6).length = l4.length + l6.length ∧
    (CreateCountryIPBlocks w country folder).2.opened
      = w.opened ++ [cidrPath w folder "ipv4" country] ++ [cidrPath w folder "ipv6" country] := by
  obtain ⟨hf4, ha4⟩ := filterMap_of_map_some ParseCIDR l4 b4 hb4
  obtain ⟨hf6, ha6⟩ := filterMap_of_map_some ParseCIDR l6 b6 hb6
  have hloads : countryLoads w folder country = true := by
    simp [countryLoads, fileLoads, h4, h6, he4, he6, hl4, hl6, ha4, ha6]
  rw [CreateCountryIPBlocks_loads w country folder hloads]
  have hlen4 : b4.length = l4.length := by
    have := congrArg List.length hb4
    simpa using this.symm
  have hlen6 : b6.length = l6.length := by
    have := congrArg List.length hb6
    simpa using this.symm
  refine ⟨?_, by simp [hlen4, hlen6], rfl⟩
  simp [fileBlocks, h4, h6, hl4, hl6, hf4, hf6]

/-- C17 at the example world and the country `DE`: one IPv4 line and one
IPv6 line give the two blocks in that order. -/
theorem C17_CreateCountryIPBlocks_concatenates_witness :
    exWorld.files (cidrPath exWorld ".test-data" "ipv4" "DE")
      = some { content := "2.56.20.0/22\n", scanErr := false } ∧
    exWorld.files (cidrPath exWorld ".test-data" "ipv6" "DE")
      = some { content := "2a00:1158::/32\n", scanErr := false } ∧
    (CreateCountryIPBlocks exWorld "DE" ".test-data").1
      = Run.ok { Country := "DE"
                 IpRanges := [{ IP := [2, 56, 20, 0], Mask := [255, 255, 252, 0] }] ++
                   [{ IP := [42, 0, 17, 88, 0, 0, 0, 0, 0, 0, 0, 0, 0, 0, 0, 0],
                      Mask := [255, 255, 255, 255, 0, 0, 0, 0, 0, 0, 0, 0, 0, 0, 0, 0] }]
                 Timestamp := exWorld.clock exWorld.tick } :=
  ⟨rfl, rfl,
   (C17_CreateCountryIPBlocks_concatenates exWorld "DE" ".test-data"
     { content := "2.56.20.0/22\n", scanErr := false }
     { content := "2a00:1158::/32\n", scanErr := false }
     ["2.56.20.0/22"] ["2a00:1158::/32"]
     [{ IP := [2, 56, 20, 0], Mask := [255, 255, 252, 0] }]
     [{ IP := [42, 0, 17, 88, 0, 0, 0, 0, 0, 0, 0, 0, 0, 0, 0, 0],
        Mask := [255, 255, 255, 255, 0, 0, 0, 0, 0, 0, 0, 0, 0, 0, 0, 0] }]
     rfl rfl rfl rfl (by decide) (by decide) (by decide) (by decide)).1⟩

/-- C18: every call of `ServeHTTP` returns without a panic and ends in
exactly one of two ways: the next handler was called once and no status was
written, or the status 403 was written once and the next handler was not
called. -/
theorem C18_one_outcome (p : traefik_allow_countries) (w : World) (request : Request) :
    (ServeHTTP p w request).panicked = none ∧
    (((ServeHTTP p w request).calls = [Call.next] ∧
        ∀ status, Call.writeHeader status ∉ (ServeHTTP p w request).calls) ∨
     ((ServeHTTP p w request).calls = [Call.writeHeader StatusForbidden] ∧
        Call.next ∉ (ServeHTTP p w request).calls)) ∧
    ¬ ((ServeHTTP p w request).calls = [Call.next] ∧
        (ServeHTTP p w request).calls = [Call.writeHeader StatusForbidden]) := by
  refine ⟨ServeHTTP_panicked p w request, ?_, ?_⟩
  · rcases ServeHTTP_calls_cases p w request with h | h
    · exact Or.inl ⟨h, by rw [h]; simp⟩
    · exact Or.inr ⟨h, by rw [h]; simp⟩
  · rintro ⟨h1, h2⟩
    rw [h1] at h2
    exact absurd h2 (by decide)

/-- C19: `HoursInMillis` is 3600000; every duration is below 2562048 hours, so
the age test of `ServeHTTP` is false for every pair of instants; whatever the
clock, the timestamps and `cidrFileUpdate`, the update check hands back the
entry it was given, and `ServeHTTP` opens no file and leaves the whole
registry as it was. -/
theorem C19_age_test_never_holds :
    HoursInMillis = 3600000 ∧
    (∀ t u : Int, TimeSub t u < 2562048 * Hour) ∧
    (∀ t u : Int, hoursAtLeast (TimeSub t u) HoursInMillis = false) ∧
    (∀ (p : traefik_allow_countries) (w : World) (entry : IpRangesTimestamp),
      (updateIfNeeded p w entry).1 = Run.ok entry) ∧
    (∀ (p : traefik_allow_countries) (w : World) (request : Request),
      (ServeHTTP p w request).allowedIPRanges = p.allowedIPRanges ∧
      (ServeHTTP p w request).world.opened = w.opened) := by
  refine ⟨rfl, ?_, hoursAtLeast_TimeSub, updateIfNeeded_fst, fun p w request =>
    ⟨ServeHTTP_registry p w request, ServeHTTP_opened p w request⟩⟩
  intro t u
  have h := TimeSub_le_max t u
  simp only [maxDuration, Hour] at *
  omega

/-- C20: for every request whose candidate list is extracted, `ServeHTTP`
calls the next handler exactly when the reference verdict allows the list and
writes 403 exactly when it does not; and a request whose candidate list
differs only behind a private candidate gets the same calls. -/
theorem C20_ServeHTTP_refines_reference (p : traefik_allow_countries) (w : World)
    (request : Request) (ips : List IP) (hc : CollectRemoteIP request = (ips, none)) :
    ((ServeHTTP p w request).calls = [Call.next] ↔
      referenceAllowed p.allowLocalRequests (findPrivateIPBlocks p.allowedIPRanges)
        p.allowedIPRanges ips = true) ∧
    ((ServeHTTP p w request).calls = [Call.writeHeader StatusForbidden] ↔
      referenceAllowed p.allowLocalRequests (findPrivateIPBlocks p.allowedIPRanges)
        p.allowedIPRanges ips = false) ∧
    (∀ (request2 : Request) (w2 : World) (pre post post2 : List IP) (x : IP),
      ips = pre ++ x :: post →
      IsPrivateIP x (findPrivateIPBlocks p.allowedIPRanges) = true →
      CollectRemoteIP request2 = (pre ++ x :: post2, none) →
      (ServeHTTP p w2 request2).calls = (ServeHTTP p w request).calls) := by
  rw [ServeHTTP_calls_of_collected p w request ips hc, verdictCalls_eq_reference]
  refine ⟨?_, ?_, ?_⟩
  · cases referenceAllowed p.allowLocalRequests (findPrivateIPBlocks p.allowedIPRanges)
      p.allowedIPRanges ips <;> simp [StatusForbidden]
  · cases referenceAllowed p.allowLocalRequests (findPrivateIPBlocks p.allowedIPRanges)
      p.allowedIPRanges ips <;> simp [StatusForbidden]
  · intro request2 w2 pre post post2 x hips hx hc2
    rw [ServeHTTP_calls_of_collected p w2 request2 _ hc2, ← verdictCalls_eq_reference, hips]
    exact verdictCalls_after_private _ _ _ x post2 post hx pre

/-- C20 at `X-Forwarded-For: 2.56.20.0,192.168.1.1,2.56.8.0` with local
requests allowed: the reference verdict allows the list, the next handler is
called, and the candidate 2.56.8.0 behind the private one is not looked at. -/
theorem C20_ServeHTTP_refines_reference_witness :
    CollectRemoteIP (exRequest "2.56.20.0,192.168.1.1,2.56.8.0")
      = ([ipDE, ipLocal, ipUS], none) ∧
    referenceAllowed (exPlugin true).allowLocalRequests
      (findPrivateIPBlocks (exPlugin true).allowedIPRanges) (exPlugin true).allowedIPRanges
      [ipDE, ipLocal, ipUS] = true ∧
    (ServeHTTP (exPlugin true) exWorld (exRequest "2.56.20.0,192.168.1.1,2.56.8.0")).calls
      = [Call.next] :=
  ⟨by decide, by decide,
   (C20_ServeHTTP_refines_reference (exPlugin true) exWorld
     (exRequest "2.56.20.0,192.168.1.1,2.56.8.0") [ipDE, ipLocal, ipUS] (by decide)).1.2
     (by decide)⟩

/-- C21: two handlers with the same `allowLocalRequests` whose registries
start with the same entry labelled `private` and continue with the same
country entries in two orders make the same calls on every request, in any
two worlds: the order in which the countries are configured does not enter
the verdict. -/
theorem C21_country_order_does_not_alter_verdict (p q : traefik_allow_countries)
    (w1 w2 : World) (request : Request) (privateEntry : IpRangesTimestamp)
    (countries1 countries2 : List IpRangesTimestamp)
    (hp : p.allowedIPRanges = privateEntry :: countries1)
    (hq : q.allowedIPRanges = privateEntry :: countries2)
    (hprivate : privateEntry.Country = PrivateIpAddressesTag)
    (hperm : countries1.Perm countries2)
    (hlocal : q.allowLocalRequests = p.allowLocalRequests) :
    (ServeHTTP q w2 request).calls = (ServeHTTP p w1 request).calls := by
  rcases hc : CollectRemoteIP request with ⟨ips, err⟩
  cases err with
  | some e =>
    rw [ServeHTTP_calls_of_error p w1 request ips e hc,
      ServeHTTP_calls_of_error q w2 request ips e hc]
  | none =>
    rw [ServeHTTP_calls_of_collected p w1 request ips hc,
      ServeHTTP_calls_of_collected q w2 request ips hc, hp, hq, hlocal]
    have hfind : ∀ cs : List IpRangesTimestamp,
        findPrivateIPBlocks (privateEntry :: cs) = privateEntry.IpRanges := by
      intro cs
      simp [findPrivateIPBlocks, hprivate]
    rw [hfind, hfind]
    exact verdictCalls_congr _ _ _ _
      (fun ip => any_perm _ _ _ (List.Perm.cons _ hperm.symm)) ips

/-- C21 at the registries `private, DE, GB` and `private, GB, DE` and the
request of `TestMultipleAllowedCountries`, `X-Forwarded-For: 1.186.0.0`: the
address is found in the third entry of the one and the second entry of the
other, and both handlers call the next handler. -/
theorem C21_country_order_does_not_alter_verdict_witness :
    [exEntryDE, exEntryGB].Perm [exEntryGB, exEntryDE] ∧
    (ServeHTTP (exPluginWith [exEntryPrivate, exEntryGB, exEntryDE]) exWorld
        (exRequest "1.186.0.0")).calls
      = (ServeHTTP (exPluginWith [exEntryPrivate, exEntryDE, exEntryGB]) exWorld
        (exRequest "1.186.0.0")).calls ∧
    (ServeHTTP (exPluginWith [exEntryPrivate, exEntryDE, exEntryGB]) exWorld
        (exRequest "1.186.0.0")).calls = [Call.next] ∧
    (ServeHTTP (exPluginWith [exEntryPrivate, exEntryDE, exEntryGB]) exWorld
        (exRequest "2.56.8.0")).calls = [Call.writeHeader StatusForbidden] :=
  ⟨List.Perm.swap _ _ _,
   C21_country_order_does_not_alter_verdict
     (exPluginWith [exEntryPrivate, exEntryDE, exEntryGB])
     (exPluginWith [exEntryPrivate, exEntryGB, exEntryDE]) exWorld exWorld
     (exRequest "1.186.0.0") exEntryPrivate [exEntryDE, exEntryGB] [exEntryGB, exEntryDE]
     rfl rfl rfl (List.Perm.swap _ _ _) rfl,
   by decide, by decide⟩

end AllowCountries
